import Mathlib

/-!
# Verification of the voxel-strategy-game simulation core

Shallow embedding of the TypeScript simulation core of
`Mirator/voxel-strategy-game` (game store `gameStore.ts`, world generator
`worldGenerator.ts`, PRNG wrapper `random.ts`, shared types `core/types.ts`)
together with proofs about the embedded operations.

Modelling conventions:
* JavaScript numbers are modelled as `ℚ` (coordinates and array indices,
  which are integral in every reachable state, as `ℤ`/`ℕ`); `NaN` and the
  floating-point rounding of doubles are outside the model.
* JavaScript object references are modelled by string ids resolved in the
  single list that owns the objects (combat units in `pool`, points of
  interest in `WorldMap.pointsOfInterest`); theorems that depend on
  reference identity carry the no-duplicate-id hypotheses that make the
  id-based rendering exact.
* The global `Math.random` stream and `Date.now()` clock are passed as
  explicit parameters wherever the source reads them.
* `seedrandom`'s output is modelled as an arbitrary stream `ℕ → ℚ` of draws;
  the library guarantees draws in `[0,1)`, which appears as a hypothesis
  (`StreamOk`) where a proof needs it.
-/

namespace VoxelGame

/-- `ResourceType` from core/types.ts. -/
inductive ResourceType where
  | gold | wood | stone | crystals
deriving DecidableEq, Repr

/-- `TerrainType` from core/types.ts. -/
inductive TerrainType where
  | grass | water | mountain | forest | desert | road
deriving DecidableEq, Repr

/-- `UnitType` from core/types.ts. -/
inductive UnitType where
  | warrior | archer | cavalry | mage | healer
deriving DecidableEq, Repr

/-- `FactionId` from core/types.ts. -/
inductive FactionId where
  | player | enemy1 | enemy2 | neutral
deriving DecidableEq, Repr

/-- `PointOfInterestType` from core/types.ts. -/
inductive POIType where
  | town | enemyCamp | resourceNode | neutralEncounter
deriving DecidableEq, Repr

/-- `Position` from core/types.ts: an integer grid coordinate. -/
structure Position where
  x : ℤ
  y : ℤ
deriving DecidableEq, Repr

/-- `Resources` from core/types.ts. -/
structure Resources where
  gold : ℚ
  wood : ℚ
  stone : ℚ
  crystals : ℚ
deriving DecidableEq, Repr

/-- `Partial<Resources>`: each field may be absent. -/
structure PartialResources where
  gold : Option ℚ := none
  wood : Option ℚ := none
  stone : Option ℚ := none
  crystals : Option ℚ := none
deriving DecidableEq, Repr

/-- `UnitStats` from core/types.ts. -/
structure UnitStats where
  maxHp : ℚ
  hp : ℚ
  attack : ℚ
  defense : ℚ
  speed : ℚ
  range : ℚ
deriving DecidableEq, Repr

/-- `Unit` from core/types.ts (a unit stack). -/
structure GameUnit where
  id : String
  type : UnitType
  name : String
  stats : UnitStats
  count : ℚ
  experience : ℚ
deriving DecidableEq, Repr

/-- `CombatUnit` from core/types.ts (`statusEffects` carries no payload the
core rules read, so it is kept as a bare length-preserving list of units). -/
structure CombatUnit where
  id : String
  type : UnitType
  name : String
  stats : UnitStats
  count : ℚ
  experience : ℚ
  combatPosition : Position
  hasActed : Bool
  isDefending : Bool
deriving DecidableEq, Repr

/-- `HeroBonuses` from core/types.ts. -/
structure HeroBonuses where
  attackBonus : ℚ
  defenseBonus : ℚ
  movementBonus : ℚ
  moraleBonus : ℚ
deriving DecidableEq, Repr

/-- `Hero` from core/types.ts. -/
structure Hero where
  id : String
  name : String
  level : ℚ
  experience : ℚ
  experienceToNext : ℚ
  position : Position
  movementPoints : ℚ
  maxMovementPoints : ℚ
  crew : List GameUnit
  bonuses : HeroBonuses
  factionId : FactionId
deriving DecidableEq, Repr

/-- `UnitRecruitOption` from core/types.ts. -/
structure UnitRecruitOption where
  unitType : UnitType
  cost : Resources
  available : ℚ
  maxPerWeek : ℚ
deriving DecidableEq, Repr

/-- The Town-specific payload of `Town extends PointOfInterest`
(core/types.ts); `buildings` is always `[]` in generated worlds and no core
rule reads it, so it is kept as a list length. -/
structure TownData where
  recruitPool : List UnitRecruitOption
  buildings : ℕ
  resources : Resources
deriving DecidableEq, Repr

/-- The EnemyCamp-specific payload of `EnemyCamp extends PointOfInterest`. -/
structure CampData where
  difficulty : ℚ
  rewards : Resources
deriving DecidableEq, Repr

/-- `PointOfInterest` (core/types.ts).  The TypeScript source uses structural
`extends`; here the variant payloads are optional fields, `some` exactly for
the matching `type` tag in every object the source constructs. -/
structure POI where
  id : String
  type : POIType
  name : String
  position : Position
  factionId : FactionId
  garrison : Option (List GameUnit) := none
  isDiscovered : Bool
  townData : Option TownData := none
  campData : Option CampData := none
deriving DecidableEq, Repr

/-- `ResourceNode` from core/types.ts. -/
structure ResourceNode where
  id : String
  resourceType : ResourceType
  position : Position
  amountPerTurn : ℚ
  isOwned : Bool
  ownedBy : Option FactionId := none
deriving DecidableEq, Repr

/-- `Tile` from core/types.ts.  The `pointOfInterest` / `resourceNode` object
references are rendered as ids resolved in the world's lists. -/
structure Tile where
  position : Position
  terrain : TerrainType
  elevation : ℚ
  movementCost : ℚ
  isPassable : Bool
  poiId : Option String := none
  nodeId : Option String := none
deriving DecidableEq, Repr

/-- `Faction` from core/types.ts. -/
structure Faction where
  id : FactionId
  name : String
  color : String
  resources : Resources
  heroes : List Hero
  ownedTowns : List String
  isAI : Bool
deriving DecidableEq, Repr

/-- `WorldMap` from core/types.ts. -/
structure WorldMap where
  width : ℕ
  height : ℕ
  tiles : List (List Tile)
  pointsOfInterest : List POI
  resourceNodes : List ResourceNode
  seed : String
deriving DecidableEq, Repr

/-- `CombatLogEntry` from core/types.ts. -/
structure CombatLogEntry where
  turn : ℤ
  message : String
  timestamp : ℤ
deriving DecidableEq, Repr

/-- The defender of a battle: `Hero | PointOfInterest`. -/
inductive CombatDefender where
  | hero (h : Hero)
  | poi (p : POI)
deriving DecidableEq, Repr

/-- `CombatState` from core/types.ts.  The three JavaScript arrays
`attackerUnits`, `defenderUnits` and `turnOrder` hold references to shared
mutable `CombatUnit` objects; the model stores every unit object once in
`pool` and keeps the arrays as lists of ids.  A unit spliced out of a roster
keeps its `pool` entry, exactly as the JavaScript object stays alive while
`turnOrder` still references it. -/
structure CombatState where
  isActive : Bool
  attacker : Hero
  defender : CombatDefender
  pool : List CombatUnit
  attackerIds : List String
  defenderIds : List String
  currentTurn : Bool
  currentUnitIndex : ℕ
  turnOrder : List String
  combatLog : List CombatLogEntry
  gridWidth : ℕ
  gridHeight : ℕ
deriving DecidableEq, Repr

/-- `gamePhase` values from core/types.ts. -/
inductive GamePhase where
  | worldMap | combat | town | menu
deriving DecidableEq, Repr

/-- `CombatAction` from core/types.ts. -/
inductive CombatActionType where
  | move | attack | defend | wait | ability
deriving DecidableEq, Repr

structure CombatAction where
  type : CombatActionType
  sourceUnit : String
  targetPosition : Option Position := none
  targetUnit : Option String := none
deriving DecidableEq, Repr

/-- `CombatResult` from core/types.ts. -/
structure CombatResult where
  winnerAttacker : Bool
  experienceGained : ℚ
  resourcesLooted : Resources
deriving DecidableEq, Repr

/-- `GameState` from core/types.ts (victory condition carries no rule the
core reads; it is omitted from the record). -/
structure GameState where
  turn : ℚ
  currentFaction : FactionId
  worldMap : WorldMap
  factions : List Faction
  combatState : Option CombatState := none
  selectedHeroId : Option String := none
  gamePhase : GamePhase
  isGameOver : Bool
  winner : Option FactionId := none
deriving DecidableEq, Repr

/-- `UNIT_TEMPLATES` from core/types.ts. -/
def UNIT_TEMPLATES (t : UnitType) : GameUnit :=
  match t with
  | .warrior =>
    { id := "", type := .warrior, name := "Warrior"
      stats := { maxHp := 50, hp := 50, attack := 12, defense := 8, speed := 4, range := 1 }
      count := 1, experience := 0 }
  | .archer =>
    { id := "", type := .archer, name := "Archer"
      stats := { maxHp := 30, hp := 30, attack := 10, defense := 4, speed := 5, range := 4 }
      count := 1, experience := 0 }
  | .cavalry =>
    { id := "", type := .cavalry, name := "Cavalry"
      stats := { maxHp := 60, hp := 60, attack := 14, defense := 6, speed := 7, range := 1 }
      count := 1, experience := 0 }
  | .mage =>
    { id := "", type := .mage, name := "Mage"
      stats := { maxHp := 25, hp := 25, attack := 18, defense := 3, speed := 4, range := 3 }
      count := 1, experience := 0 }
  | .healer =>
    { id := "", type := .healer, name := "Healer"
      stats := { maxHp := 20, hp := 20, attack := 5, defense := 5, speed := 5, range := 2 }
      count := 1, experience := 0 }

/-- `TERRAIN_COSTS` from core/types.ts.  The source stores `Infinity` for
water; water is impassable, so its cost is never read by any rule — it is
rendered by a constant larger than any accumulated path cost. -/
def TERRAIN_COSTS (t : TerrainType) : ℚ :=
  match t with
  | .grass => 1
  | .road => 1/2
  | .forest => 2
  | .desert => 3/2
  | .mountain => 3
  | .water => 1000000000

/-- `TERRAIN_PASSABLE` from core/types.ts. -/
def TERRAIN_PASSABLE (t : TerrainType) : Bool :=
  match t with
  | .grass => true
  | .road => true
  | .forest => true
  | .desert => true
  | .mountain => false
  | .water => false

/-! ## Resource management (gameStore.ts `addResources` / `spendResources`) -/

/-- `getFaction` (gameStore.ts): first faction with the given id. -/
def getFaction (s : GameState) (fid : FactionId) : Option Faction :=
  s.factions.find? (fun f => f.id = fid)

/-- JavaScript truthiness of an optional numeric field: the source guards
each deduction with `if (resources.gold)`, which skips `undefined` and `0`. -/
def truthy (o : Option ℚ) : Bool :=
  match o with
  | none => false
  | some q => q ≠ 0

/-- Apply the four guarded `+=` updates of `addResources` to one treasury. -/
def addPartial (r : Resources) (p : PartialResources) : Resources :=
  { gold := if truthy p.gold then r.gold + p.gold.getD 0 else r.gold
    wood := if truthy p.wood then r.wood + p.wood.getD 0 else r.wood
    stone := if truthy p.stone then r.stone + p.stone.getD 0 else r.stone
    crystals := if truthy p.crystals then r.crystals + p.crystals.getD 0 else r.crystals }

/-- Apply the four guarded `-=` updates of `spendResources` to one treasury. -/
def subPartial (r : Resources) (p : PartialResources) : Resources :=
  { gold := if truthy p.gold then r.gold - p.gold.getD 0 else r.gold
    wood := if truthy p.wood then r.wood - p.wood.getD 0 else r.wood
    stone := if truthy p.stone then r.stone - p.stone.getD 0 else r.stone
    crystals := if truthy p.crystals then r.crystals - p.crystals.getD 0 else r.crystals }

/-- The affordability test of `spendResources`: every requested kind must be
covered (`undefined` kinds are skipped). -/
def canAfford (r : Resources) (p : PartialResources) : Bool :=
  (p.gold.elim true (fun q => r.gold ≥ q)) &&
  (p.wood.elim true (fun q => r.wood ≥ q)) &&
  (p.stone.elim true (fun q => r.stone ≥ q)) &&
  (p.crystals.elim true (fun q => r.crystals ≥ q))

/-- Update the first faction with the given id (the in-place mutation of the
object found by `draft.factions.find`). -/
def updateFaction (fs : List Faction) (fid : FactionId) (g : Faction → Faction) :
    List Faction :=
  match fs with
  | [] => []
  | f :: rest =>
    if f.id = fid then g f :: rest else f :: updateFaction rest fid g

/-- `addResources` (gameStore.ts lines 608-618). -/
def addResources (s : GameState) (fid : FactionId) (p : PartialResources) : GameState :=
  { s with factions := (updateFaction s.factions fid
      (fun f => { f with resources := addPartial f.resources p })) }

/-- `spendResources` (gameStore.ts lines 621-644). -/
def spendResources (s : GameState) (fid : FactionId) (p : PartialResources) :
    Bool × GameState :=
  match getFaction s fid with
  | none => (false, s)
  | some f =>
    if canAfford f.resources p then
      (true,
       { s with factions := (updateFaction s.factions fid
           (fun f => { f with resources := subPartial f.resources p })) })
    else (false, s)

/-! ### C1: `spendResources` is all-or-nothing -/

theorem updateFaction_of_find?_eq_none {fs : List Faction} {fid : FactionId}
    (h : fs.find? (fun f => f.id = fid) = none) (g : Faction → Faction) :
    updateFaction fs fid g = fs := by
  induction fs with
  | nil => rfl
  | cons f rest ih =>
    by_cases hf : f.id = fid
    · rw [List.find?_cons_of_pos _ (by simpa using hf)] at h
      cases h
    · rw [List.find?_cons_of_neg _ (by simpa using hf)] at h
      simp only [updateFaction, if_neg hf, ih h]

theorem find?_updateFaction_self {fs : List Faction} {fid : FactionId} {f : Faction}
    (h : fs.find? (fun f => f.id = fid) = some f) (g : Faction → Faction)
    (hg : (g f).id = f.id) :
    (updateFaction fs fid g).find? (fun f => f.id = fid) = some (g f) := by
  induction fs with
  | nil => cases h
  | cons a rest ih =>
    by_cases ha : a.id = fid
    · rw [List.find?_cons_of_pos _ (by simpa using ha)] at h
      cases h
      simp only [updateFaction, if_pos ha]
      exact List.find?_cons_of_pos _ (by simpa using hg.trans ha)
    · rw [List.find?_cons_of_neg _ (by simpa using ha)] at h
      simp only [updateFaction, if_neg ha]
      rw [List.find?_cons_of_neg _ (by simpa using ha)]
      exact ih h

theorem mem_updateFaction {fs : List Faction} {fid : FactionId}
    {g : Faction → Faction} {f : Faction} (h : f ∈ updateFaction fs fid g) :
    f ∈ fs ∨ ∃ f₀ ∈ fs, f = g f₀ := by
  induction fs with
  | nil => simp [updateFaction] at h
  | cons a rest ih =>
    simp only [updateFaction] at h
    by_cases ha : a.id = fid
    · rw [if_pos ha] at h
      rcases List.mem_cons.mp h with h | h
      · exact Or.inr ⟨a, List.mem_cons_self a rest, h⟩
      · exact Or.inl (List.mem_cons_of_mem _ h)
    · rw [if_neg ha] at h
      rcases List.mem_cons.mp h with h | h
      · exact Or.inl (h ▸ List.mem_cons_self a rest)
      · rcases ih h with h | ⟨f₀, hf₀, hfe⟩
        · exact Or.inl (List.mem_cons_of_mem _ h)
        · exact Or.inr ⟨f₀, List.mem_cons_of_mem _ hf₀, hfe⟩

/-- The truthiness guard on a subtraction is redundant: skipping an absent or
zero field is the same as subtracting `0`. -/
theorem if_truthy_sub (r : ℚ) (o : Option ℚ) :
    (if truthy o then r - o.getD 0 else r) = r - o.getD 0 := by
  cases o with
  | none => simp [truthy]
  | some q => by_cases hq : q = 0 <;> simp [truthy, hq]

/-- The truthiness guard on an addition is redundant in the same way. -/
theorem if_truthy_add (r : ℚ) (o : Option ℚ) :
    (if truthy o then r + o.getD 0 else r) = r + o.getD 0 := by
  cases o with
  | none => simp [truthy]
  | some q => by_cases hq : q = 0 <;> simp [truthy, hq]

theorem subPartial_eq (r : Resources) (p : PartialResources) :
    subPartial r p =
      { gold := r.gold - p.gold.getD 0, wood := r.wood - p.wood.getD 0
        stone := r.stone - p.stone.getD 0, crystals := r.crystals - p.crystals.getD 0 } := by
  simp only [subPartial, if_truthy_sub]

theorem addPartial_eq (r : Resources) (p : PartialResources) :
    addPartial r p =
      { gold := r.gold + p.gold.getD 0, wood := r.wood + p.wood.getD 0
        stone := r.stone + p.stone.getD 0, crystals := r.crystals + p.crystals.getD 0 } := by
  simp only [addPartial, if_truthy_add]

/-- C1: `spendResources` is all-or-nothing.  If the faction exists and its
treasury covers every requested kind, the call returns `true` and the
faction's treasury drops by exactly the requested amount in every kind; if
any requested kind exceeds the treasury, the call returns `false` and the
whole game state — every resource of every faction — is unchanged.  No
partial deduction occurs in either case. -/
theorem spendResources_all_or_nothing (s : GameState) (fid : FactionId)
    (p : PartialResources) (f : Faction) (hf : getFaction s fid = some f) :
    (canAfford f.resources p = true →
      (spendResources s fid p).1 = true ∧
      getFaction (spendResources s fid p).2 fid =
        some { f with resources :=
          { gold := f.resources.gold - (p.gold.getD 0)
            wood := f.resources.wood - (p.wood.getD 0)
            stone := f.resources.stone - (p.stone.getD 0)
            crystals := f.resources.crystals - (p.crystals.getD 0) } }) ∧
    (canAfford f.resources p = false →
      spendResources s fid p = (false, s)) := by
  constructor
  · intro hcan
    constructor
    · simp [spendResources, hf, hcan]
    · simp only [spendResources, hf, hcan, if_true]
      have := find?_updateFaction_self hf
        (fun f => { f with resources := subPartial f.resources p }) rfl
      simpa [getFaction, subPartial_eq] using this
  · intro hcan
    simp [spendResources, hf, hcan]

/-- A one-faction state used to exercise C1 concretely. -/
def c1Faction : Faction :=
  { id := .player, name := "P", color := "", resources := ⟨100, 20, 0, 0⟩
    heroes := [], ownedTowns := [], isAI := false }

def c1State : GameState :=
  { turn := 1, currentFaction := .player
    worldMap := ⟨0, 0, [], [], [], ""⟩, factions := [c1Faction]
    gamePhase := .worldMap, isGameOver := false }

/-- Witness for C1 at a concrete state: a faction holding 100 gold asked to
spend 150 gold answers `false` and keeps its 100 gold; asked to spend 40
gold and 5 wood it answers `true` and drops to 60 gold, 15 wood. -/
theorem spendResources_all_or_nothing_witness :
    (spendResources c1State .player { gold := some 150 } = (false, c1State)) ∧
    ((spendResources c1State .player { gold := some 40, wood := some 5 }).1 = true ∧
      getFaction (spendResources c1State .player { gold := some 40, wood := some 5 }).2
          .player = some { c1Faction with resources := ⟨60, 15, 0, 0⟩ }) := by
  refine ⟨(spendResources_all_or_nothing c1State .player { gold := some 150 } c1Faction
      (by decide)).2 (by decide), ?_⟩
  have h := (spendResources_all_or_nothing c1State .player
      { gold := some 40, wood := some 5 } c1Faction (by decide)).1 (by decide)
  refine ⟨h.1, ?_⟩
  rw [h.2]
  simp only [c1Faction]
  norm_num

/-! ## Combat engine (gameStore.ts `executeCombatAction`, lines 327-416)

The JavaScript mutates shared `CombatUnit` objects found by id inside
`attackerUnits ++ defenderUnits`; the model keeps every object once in
`pool` and mutates the first entry with the given id, which is the entry
`Array.prototype.find` returns. -/

/-- First unit with the given id in a unit list (a JS `find` by id). -/
def poolGet (pool : List CombatUnit) (uid : String) : Option CombatUnit :=
  pool.find? (fun u => u.id = uid)

/-- Mutate the first unit with the given id (the JS in-place mutation of the
object returned by `find`). -/
def updateUnit (pool : List CombatUnit) (uid : String) (g : CombatUnit → CombatUnit) :
    List CombatUnit :=
  match pool with
  | [] => []
  | u :: rest => if u.id = uid then g u :: rest else u :: updateUnit rest uid g

/-- `[...combatState.attackerUnits, ...combatState.defenderUnits].find(u => u.id === x)`:
the unit is found only while some roster still references it. -/
def findRosterUnit (cs : CombatState) (uid : String) : Option CombatUnit :=
  if (cs.attackerIds ++ cs.defenderIds).contains uid then poolGet cs.pool uid else none

/-- The `turn` field of a combat-log entry: `combatState.turnOrder.indexOf(sourceUnit)`,
`-1` when absent, exactly as in JavaScript. -/
def jsIndexOf (l : List String) (uid : String) : ℤ :=
  match l.findIdx? (fun x => x = uid) with
  | some n => (n : ℤ)
  | none => -1

/-- `damage = Math.max(1, sourceUnit.stats.attack * sourceUnit.count - targetUnit.stats.defense)`. -/
def attackDamage (su tu : CombatUnit) : ℚ :=
  max 1 (su.stats.attack * su.count - tu.stats.defense)

/-- `unitsKilled = Math.floor(damage / UNIT_TEMPLATES[targetUnit.type].stats.maxHp)`. -/
def attackKilled (su tu : CombatUnit) : ℤ :=
  ⌊attackDamage su tu / (UNIT_TEMPLATES tu.type).stats.maxHp⌋

/-- Damage application plus the combat-log push of the `attack` case. -/
def attackLogged (cs : CombatState) (su tu : CombatUnit) (now : ℤ) : CombatState :=
  { cs with
    pool := (updateUnit cs.pool tu.id (fun u =>
      { u with stats := { u.stats with hp := u.stats.hp - attackDamage su tu }
               count := max 0 (u.count - attackKilled su tu) }))
    combatLog := cs.combatLog ++
      [{ turn := jsIndexOf cs.turnOrder su.id
         message := su.name ++ " deals " ++ toString (attackDamage su tu) ++
           " damage to " ++ tu.name
         timestamp := now }] }

/-- The `case 'attack'` body, given the already-found source and target:
apply damage, log, and splice a dead target out of the roster whose array
still contains it. -/
def applyAttack (cs : CombatState) (su tu : CombatUnit) (now : ℤ) : CombatState :=
  if max 0 (tu.count - attackKilled su tu) ≤ 0 ∨ tu.stats.hp - attackDamage su tu ≤ 0 then
    if cs.attackerIds.contains tu.id then
      { attackLogged cs su tu now with attackerIds := cs.attackerIds.erase tu.id }
    else
      { attackLogged cs su tu now with defenderIds := cs.defenderIds.erase tu.id }
  else attackLogged cs su tu now

/-- The `switch (action.type)` body of `executeCombatAction`. -/
def applyActionBody (cs : CombatState) (su : CombatUnit) (a : CombatAction) (now : ℤ) :
    CombatState :=
  match a.type with
  | .move =>
    match a.targetPosition with
    | some p => { cs with pool := updateUnit cs.pool su.id (fun u => { u with combatPosition := p }) }
    | none => cs
  | .attack =>
    match a.targetUnit with
    | none => cs
    | some tid =>
      match findRosterUnit cs tid with
      | none => cs
      | some tu => applyAttack cs su tu now
  | .defend =>
    { cs with pool := (updateUnit cs.pool su.id (fun u =>
        { u with isDefending := true
                 stats := { u.stats with defense := u.stats.defense * (3/2) } })) }
  | .wait => cs
  | .ability => cs

/-- A turn-order unit counts as acted when its (still live) object has
`hasActed`.  An id without a pool object cannot occur in a state built by
`startCombat`; it defaults to `false` (no round reset). -/
def actedIn (cs : CombatState) (uid : String) : Bool :=
  ((poolGet cs.pool uid).map (fun u => u.hasActed)).getD false

/-- The round reset: once every unit referenced by `turnOrder` has acted,
`forEach` clears the `hasActed` and `isDefending` flag of each of those
(still referenced, possibly roster-spliced) objects. -/
def roundResetIfDone (cs : CombatState) : CombatState :=
  if cs.turnOrder.all (fun uid => actedIn cs uid) then
    { cs with pool := (cs.pool.map (fun u =>
        if cs.turnOrder.contains u.id then { u with hasActed := false, isDefending := false }
        else u)) }
  else cs

/-- End-of-action bookkeeping: combat-end check, turn-index advance, and the
round reset.  (When `turnOrder` is empty but both rosters are non-empty the
JavaScript stores `NaN` into `currentUnitIndex`; such a state is not
constructible by `startCombat` and the model keeps the index unchanged
there, `% 0` being the identity on `ℕ`.) -/
def endOfAction (cs : CombatState) : CombatState :=
  if cs.attackerIds.isEmpty ∨ cs.defenderIds.isEmpty then cs
  else roundResetIfDone
    { cs with currentUnitIndex := (cs.currentUnitIndex + 1) % cs.turnOrder.length }

/-- `sourceUnit.hasActed = true`. -/
def markActed (cs : CombatState) (uid : String) : CombatState :=
  { cs with pool := updateUnit cs.pool uid (fun u => { u with hasActed := true }) }

/-- `executeCombatAction` (gameStore.ts lines 327-416) on the combat state. -/
def execCombatAction (cs : CombatState) (a : CombatAction) (now : ℤ) : CombatState :=
  match findRosterUnit cs a.sourceUnit with
  | none => cs
  | some su =>
    if su.hasActed then cs
    else endOfAction (markActed (applyActionBody cs su a now) su.id)

/-- `executeCombatAction` on the whole game state (no-op without a battle). -/
def executeCombatAction (s : GameState) (a : CombatAction) (now : ℤ) : GameState :=
  match s.combatState with
  | none => s
  | some cs => { s with combatState := some (execCombatAction cs a now) }

/-! ### Lemmas about pool lookups and updates -/

theorem poolGet_cons_pos {u : CombatUnit} {uid : String} (rest : List CombatUnit)
    (h : u.id = uid) : poolGet (u :: rest) uid = some u :=
  List.find?_cons_of_pos _ (by simpa using h)

theorem poolGet_cons_neg {u : CombatUnit} {uid : String} (rest : List CombatUnit)
    (h : ¬u.id = uid) : poolGet (u :: rest) uid = poolGet rest uid :=
  List.find?_cons_of_neg _ (by simpa using h)

theorem poolGet_updateUnit (pool : List CombatUnit) (uid uid2 : String)
    (g : CombatUnit → CombatUnit) (hg : ∀ u, (g u).id = u.id) :
    poolGet (updateUnit pool uid g) uid2 =
      if uid2 = uid then (poolGet pool uid).map g else poolGet pool uid2 := by
  induction pool with
  | nil => simp [poolGet, updateUnit]
  | cons u rest ih =>
    simp only [updateUnit]
    by_cases hu : u.id = uid
    · rw [if_pos hu]
      by_cases h2 : uid2 = uid
      · subst h2
        rw [if_pos rfl, poolGet_cons_pos rest hu,
          @poolGet_cons_pos (g u) uid2 rest ((hg u).trans hu)]
        rfl
      · rw [if_neg h2,
          @poolGet_cons_neg (g u) uid2 rest
            (fun h => h2 (h ▸ ((hg u).trans hu).symm ▸ rfl)),
          @poolGet_cons_neg u uid2 rest (fun h => h2 (hu ▸ h ▸ rfl))]
    · rw [if_neg hu]
      by_cases h2 : uid2 = uid
      · subst h2
        rw [if_pos rfl, poolGet_cons_neg (updateUnit rest uid2 g) hu, poolGet_cons_neg rest hu]
        have := ih
        rw [if_pos rfl] at this
        exact this
      · by_cases h3 : u.id = uid2
        · rw [if_neg h2, poolGet_cons_pos (updateUnit rest uid g) h3,
            poolGet_cons_pos rest h3]
        · rw [if_neg h2, poolGet_cons_neg (updateUnit rest uid g) h3,
            poolGet_cons_neg rest h3]
          have := ih
          rw [if_neg h2] at this
          exact this

theorem poolGet_map (pool : List CombatUnit) (uid : String)
    (g : CombatUnit → CombatUnit) (hg : ∀ u, (g u).id = u.id) :
    poolGet (pool.map g) uid = (poolGet pool uid).map g := by
  unfold poolGet
  rw [List.find?_map]
  have hfun : ((fun u : CombatUnit => decide (u.id = uid)) ∘ g) =
      (fun u : CombatUnit => decide (u.id = uid)) := by
    funext u
    simp [Function.comp, hg]
  rw [hfun]

/-- `roundResetIfDone` only ever clears `hasActed`/`isDefending` flags. -/
theorem roundResetIfDone_frame (cs : CombatState) :
    (roundResetIfDone cs).turnOrder = cs.turnOrder ∧
    (roundResetIfDone cs).attackerIds = cs.attackerIds ∧
    (roundResetIfDone cs).defenderIds = cs.defenderIds ∧
    (roundResetIfDone cs).combatLog = cs.combatLog ∧
    (∀ uid, ((poolGet (roundResetIfDone cs).pool uid).map
        (fun u => (u.stats.hp, u.count))) =
      ((poolGet cs.pool uid).map (fun u => (u.stats.hp, u.count)))) := by
  unfold roundResetIfDone
  split
  · refine ⟨rfl, rfl, rfl, rfl, fun uid => ?_⟩
    rw [poolGet_map _ _ _ (fun u => by split <;> rfl), Option.map_map]
    cases poolGet cs.pool uid with
    | none => rfl
    | some u =>
      dsimp only [Option.map, Function.comp]
      congr 1
      split <;> rfl
  · exact ⟨rfl, rfl, rfl, rfl, fun _ => rfl⟩

/-- `endOfAction` never changes the rosters, the log, or the turn order, and
only ever clears `hasActed`/`isDefending` flags in the pool. -/
theorem endOfAction_frame (cs : CombatState) :
    (endOfAction cs).turnOrder = cs.turnOrder ∧
    (endOfAction cs).attackerIds = cs.attackerIds ∧
    (endOfAction cs).defenderIds = cs.defenderIds ∧
    (endOfAction cs).combatLog = cs.combatLog ∧
    (∀ uid, ((poolGet (endOfAction cs).pool uid).map
        (fun u => (u.stats.hp, u.count))) =
      ((poolGet cs.pool uid).map (fun u => (u.stats.hp, u.count)))) := by
  unfold endOfAction
  split
  · exact ⟨rfl, rfl, rfl, rfl, fun _ => rfl⟩
  · exact roundResetIfDone_frame _

theorem poolGet_proj_updateUnit {α : Type} (π : CombatUnit → α) (pool : List CombatUnit)
    (uid uid2 : String) (g : CombatUnit → CombatUnit)
    (hg : ∀ u, (g u).id = u.id) (hπ : ∀ u, π (g u) = π u) :
    (poolGet (updateUnit pool uid g) uid2).map π = (poolGet pool uid2).map π := by
  rw [poolGet_updateUnit pool uid uid2 g hg]
  split
  · rename_i h
    subst h
    cases poolGet pool uid2 with
    | none => rfl
    | some u => simp [hπ]
  · rfl

/-- A unit found in a roster has the id it was searched by. -/
theorem findRosterUnit_id {cs : CombatState} {uid : String} {u : CombatUnit}
    (h : findRosterUnit cs uid = some u) :
    u.id = uid ∧ poolGet cs.pool uid = some u := by
  unfold findRosterUnit at h
  split at h
  · exact ⟨by simpa using List.find?_some h, h⟩
  · cases h

/-! ### C2: the `attack` combat action -/

/-- C2: for an attack through `executeCombatAction` by a not-yet-acted source
on an existing target, the damage is `max(1, attack·count − defense)`, the
target's hp drops by that damage, its stack count becomes
`max(0, count − ⌊damage / template maxHp⌋)`, exactly one combat-log entry is
appended, and the target is spliced out of its roster exactly once iff its
new count is `0` or its new hp is `≤ 0`. -/
theorem executeCombatAction_attack_spec (s : GameState) (cs : CombatState)
    (a : CombatAction) (now : ℤ) (su tu : CombatUnit) (tid : String)
    (hcs : s.combatState = some cs)
    (hty : a.type = .attack)
    (hsrc : findRosterUnit cs a.sourceUnit = some su)
    (hacted : su.hasActed = false)
    (htgt : a.targetUnit = some tid)
    (htu : findRosterUnit cs tid = some tu) :
    (executeCombatAction s a now).combatState = some (execCombatAction cs a now) ∧
    attackDamage su tu = max 1 (su.stats.attack * su.count - tu.stats.defense) ∧
    attackKilled su tu = ⌊attackDamage su tu / (UNIT_TEMPLATES tu.type).stats.maxHp⌋ ∧
    ((poolGet (execCombatAction cs a now).pool tid).map (fun u => (u.stats.hp, u.count)) =
      some (tu.stats.hp - attackDamage su tu, max 0 (tu.count - attackKilled su tu))) ∧
    (∃ e, (execCombatAction cs a now).combatLog = cs.combatLog ++ [e]) ∧
    (if max 0 (tu.count - attackKilled su tu) ≤ 0 ∨ tu.stats.hp - attackDamage su tu ≤ 0 then
      (if tid ∈ cs.attackerIds then
        (execCombatAction cs a now).attackerIds = cs.attackerIds.erase tid ∧
        (execCombatAction cs a now).defenderIds = cs.defenderIds
      else
        (execCombatAction cs a now).attackerIds = cs.attackerIds ∧
        (execCombatAction cs a now).defenderIds = cs.defenderIds.erase tid)
    else
      (execCombatAction cs a now).attackerIds = cs.attackerIds ∧
      (execCombatAction cs a now).defenderIds = cs.defenderIds) := by
  obtain ⟨hid, hfind⟩ := findRosterUnit_id htu
  refine ⟨by simp [executeCombatAction, hcs], rfl, rfl, ?_⟩
  have hexec : execCombatAction cs a now =
      endOfAction (markActed (applyAttack cs su tu now) su.id) := by
    simp [execCombatAction, hsrc, hacted, applyActionBody, hty, htgt, htu]
  rw [hexec]
  obtain ⟨hto, hatk, hdef, hlog, hpool⟩ :=
    endOfAction_frame (markActed (applyAttack cs su tu now) su.id)
  have hmark : ∀ uid, ((poolGet (markActed (applyAttack cs su tu now) su.id).pool uid).map
      (fun u => (u.stats.hp, u.count))) =
      ((poolGet (applyAttack cs su tu now).pool uid).map (fun u => (u.stats.hp, u.count))) := by
    intro uid
    unfold markActed
    exact poolGet_proj_updateUnit _ _ _ _ _ (fun u => rfl) (fun u => rfl)
  have hattackpool : (applyAttack cs su tu now).pool =
      updateUnit cs.pool tu.id (fun u =>
        { u with stats := { u.stats with hp := u.stats.hp - attackDamage su tu }
                 count := max 0 (u.count - attackKilled su tu) }) := by
    unfold applyAttack attackLogged
    split
    · split <;> rfl
    · rfl
  refine ⟨?_, ?_, ?_⟩
  · rw [hpool tid, hmark tid, hattackpool,
      poolGet_updateUnit cs.pool tu.id tid
        (fun u => { u with stats := { u.stats with hp := u.stats.hp - attackDamage su tu }
                           count := max 0 (u.count - attackKilled su tu) })
        (fun u => rfl),
      if_pos hid.symm, hid, hfind]
    rfl
  · refine ⟨{ turn := jsIndexOf cs.turnOrder su.id
              message := su.name ++ " deals " ++ toString (attackDamage su tu) ++
                " damage to " ++ tu.name
              timestamp := now }, ?_⟩
    rw [hlog]
    show (applyAttack cs su tu now).combatLog = _
    unfold applyAttack attackLogged
    split
    · split <;> rfl
    · rfl
  · rw [hatk, hdef]
    have hra : (markActed (applyAttack cs su tu now) su.id).attackerIds =
        (applyAttack cs su tu now).attackerIds := rfl
    have hrd : (markActed (applyAttack cs su tu now) su.id).defenderIds =
        (applyAttack cs su tu now).defenderIds := rfl
    rw [hra, hrd]
    unfold applyAttack
    split
    · by_cases hmem : tid ∈ cs.attackerIds
      · rw [if_pos hmem,
          if_pos (show cs.attackerIds.contains tu.id = true by
            rw [hid]; exact List.elem_iff.mpr hmem)]
        refine ⟨?_, rfl⟩
        show cs.attackerIds.erase tu.id = cs.attackerIds.erase tid
        rw [hid]
      · rw [if_neg hmem,
          if_neg (show ¬cs.attackerIds.contains tu.id = true by
            rw [hid]; exact fun hc => hmem (List.elem_iff.mp hc))]
        refine ⟨rfl, ?_⟩
        show cs.defenderIds.erase tu.id = cs.defenderIds.erase tid
        rw [hid]
    · exact ⟨rfl, rfl⟩

/-- A small concrete battle used to exercise the combat theorems: one
warrior stack of 10 attacking, one archer stack of 5 defending. -/
def c2A : CombatUnit :=
  { id := "A", type := .warrior, name := "Warrior"
    stats := (UNIT_TEMPLATES .warrior).stats, count := 10, experience := 0
    combatPosition := ⟨0, 0⟩, hasActed := false, isDefending := false }

def c2D : CombatUnit :=
  { id := "D", type := .archer, name := "Archer"
    stats := (UNIT_TEMPLATES .archer).stats, count := 5, experience := 0
    combatPosition := ⟨7, 0⟩, hasActed := false, isDefending := false }

def c2Hero : Hero :=
  { id := "h1", name := "Alaric", level := 1, experience := 0, experienceToNext := 100
    position := ⟨1, 1⟩, movementPoints := 10, maxMovementPoints := 10, crew := []
    bonuses := ⟨0, 0, 0, 0⟩, factionId := .player }

def c2cs : CombatState :=
  { isActive := true, attacker := c2Hero, defender := .hero c2Hero
    pool := [c2A, c2D], attackerIds := ["A"], defenderIds := ["D"]
    currentTurn := true, currentUnitIndex := 0, turnOrder := ["A", "D"]
    combatLog := [], gridWidth := 8, gridHeight := 6 }

def c2s : GameState :=
  { turn := 1, currentFaction := .player, worldMap := ⟨0, 0, [], [], [], ""⟩
    factions := [], combatState := some c2cs, gamePhase := .combat, isGameOver := false }

def c2act : CombatAction :=
  { type := .attack, sourceUnit := "A", targetUnit := some "D" }

/-- Witness for C2 at the concrete battle above. -/
theorem executeCombatAction_attack_spec_witness :
    c2A.hasActed = false ∧
    (poolGet (execCombatAction c2cs c2act 0).pool "D").map (fun u => (u.stats.hp, u.count)) =
      some (c2D.stats.hp - attackDamage c2A c2D, max 0 (c2D.count - attackKilled c2A c2D)) :=
  ⟨rfl, (executeCombatAction_attack_spec c2s c2cs c2act 0 c2A c2D "D"
    rfl rfl rfl rfl rfl rfl).2.2.2.1⟩

/-! ### C9: `executeCombatAction` and the turn order -/

theorem actedIn_of_pool_proj {cs cs' : CombatState}
    (h : ∀ uid, (poolGet cs'.pool uid).map (fun u => u.hasActed) =
      (poolGet cs.pool uid).map (fun u => u.hasActed)) (uid : String) :
    actedIn cs' uid = actedIn cs uid := by
  unfold actedIn
  rw [h]

theorem applyAttack_turnOrder (cs : CombatState) (su tu : CombatUnit) (now : ℤ) :
    (applyAttack cs su tu now).turnOrder = cs.turnOrder := by
  unfold applyAttack
  split
  · split <;> rfl
  · rfl

theorem applyActionBody_turnOrder (cs : CombatState) (su : CombatUnit)
    (a : CombatAction) (now : ℤ) :
    (applyActionBody cs su a now).turnOrder = cs.turnOrder := by
  unfold applyActionBody
  split
  · split <;> rfl
  · split
    · rfl
    · split
      · rfl
      · exact applyAttack_turnOrder ..
  · rfl
  · rfl
  · rfl

theorem applyAttack_actedIn (cs : CombatState) (su tu : CombatUnit) (now : ℤ)
    (uid : String) : actedIn (applyAttack cs su tu now) uid = actedIn cs uid := by
  refine actedIn_of_pool_proj (fun uid => ?_) uid
  have hpool : (applyAttack cs su tu now).pool =
      updateUnit cs.pool tu.id (fun u =>
        { u with stats := { u.stats with hp := u.stats.hp - attackDamage su tu }
                 count := max 0 (u.count - attackKilled su tu) }) := by
    unfold applyAttack attackLogged
    split
    · split <;> rfl
    · rfl
  rw [hpool]
  exact poolGet_proj_updateUnit _ _ _ _ _ (by intro u; rfl) (by intro u; rfl)

theorem applyActionBody_actedIn (cs : CombatState) (su : CombatUnit)
    (a : CombatAction) (now : ℤ) (uid : String) :
    actedIn (applyActionBody cs su a now) uid = actedIn cs uid := by
  unfold applyActionBody
  split
  · split
    · exact actedIn_of_pool_proj
        (fun uid => poolGet_proj_updateUnit _ _ _ _ _ (by intro u; rfl) (by intro u; rfl)) uid
    · rfl
  · split
    · rfl
    · split
      · rfl
      · exact applyAttack_actedIn ..
  · exact actedIn_of_pool_proj
      (fun uid => poolGet_proj_updateUnit _ _ _ _ _ (by intro u; rfl) (by intro u; rfl)) uid
  · rfl
  · rfl

theorem actedIn_markActed_ne (cs : CombatState) (uid0 uid : String) (h : uid ≠ uid0) :
    actedIn (markActed cs uid0) uid = actedIn cs uid := by
  unfold actedIn markActed
  simp only
  rw [poolGet_updateUnit _ _ _ _ (by intro u; rfl), if_neg h]

theorem actedIn_markActed_true (cs : CombatState) (uid0 uid : String)
    (h : actedIn cs uid = true) : actedIn (markActed cs uid0) uid = true := by
  unfold actedIn markActed at *
  simp only at *
  rw [poolGet_updateUnit _ _ _ _ (by intro u; rfl)]
  split
  · rename_i he
    subst he
    cases hp : poolGet cs.pool uid with
    | none => rw [hp] at h; cases h
    | some u => simp
  · exact h

/-- C9: `executeCombatAction` never changes the membership or order of
`turnOrder` (so a unit spliced out of its roster by a lethal attack stays in
the queue), and the round reset never clears an acted flag while some unit
of `turnOrder` other than the acting source — dead or alive — still has
`hasActed = false`. -/
theorem executeCombatAction_turnOrder_spec (cs : CombatState) (a : CombatAction)
    (now : ℤ) :
    (execCombatAction cs a now).turnOrder = cs.turnOrder ∧
    (∀ uid ∈ cs.turnOrder, uid ∈ (execCombatAction cs a now).turnOrder) ∧
    ((∃ uid0 ∈ cs.turnOrder, uid0 ≠ a.sourceUnit ∧ actedIn cs uid0 = false) →
      ∀ uid, actedIn cs uid = true → actedIn (execCombatAction cs a now) uid = true) := by
  unfold execCombatAction
  cases hsrc : findRosterUnit cs a.sourceUnit with
  | none => exact ⟨rfl, fun uid h => h, fun _ uid h => h⟩
  | some su =>
    dsimp only
    by_cases hact : su.hasActed = true
    · rw [if_pos hact]
      exact ⟨rfl, fun uid h => h, fun _ uid h => h⟩
    · rw [if_neg hact]
      have hsuid : su.id = a.sourceUnit := (findRosterUnit_id hsrc).1
      have hmidTO : (markActed (applyActionBody cs su a now) su.id).turnOrder =
          cs.turnOrder := applyActionBody_turnOrder ..
      have hTO : (endOfAction (markActed (applyActionBody cs su a now) su.id)).turnOrder =
          cs.turnOrder := by
        rw [(endOfAction_frame _).1, hmidTO]
      refine ⟨hTO, fun uid h => hTO ▸ h, ?_⟩
      rintro ⟨uid0, hmem0, hne0, hact0⟩ uid huid
      have hmid : ∀ v, actedIn cs v = true →
          actedIn (markActed (applyActionBody cs su a now) su.id) v = true := by
        intro v hv
        exact actedIn_markActed_true _ _ _ ((applyActionBody_actedIn ..).trans hv)
      have hmid0 : actedIn (markActed (applyActionBody cs su a now) su.id) uid0 = false := by
        rw [actedIn_markActed_ne _ _ _ (by rw [hsuid]; exact hne0),
          applyActionBody_actedIn]
        exact hact0
      unfold endOfAction
      split
      · exact hmid uid huid
      · unfold roundResetIfDone
        rw [if_neg ?hall]
        case hall =>
          intro hall
          rw [List.all_eq_true] at hall
          have := hall uid0 (by simpa [hmidTO] using hmem0)
          rw [show actedIn { markActed (applyActionBody cs su a now) su.id with
              currentUnitIndex := ((markActed (applyActionBody cs su a now) su.id).currentUnitIndex + 1) %
                (markActed (applyActionBody cs su a now) su.id).turnOrder.length } uid0 =
              actedIn (markActed (applyActionBody cs su a now) su.id) uid0 from rfl,
            hmid0] at this
          cases this
        exact hmid uid huid

/-- Witness for C9 at the concrete battle: the defender has not acted yet, so
the lethal attack neither reorders the queue nor clears any acted flag. -/
theorem executeCombatAction_turnOrder_spec_witness :
    ("D" ∈ c2cs.turnOrder ∧ "D" ≠ c2act.sourceUnit ∧ actedIn c2cs "D" = false) ∧
    (execCombatAction c2cs c2act 0).turnOrder = c2cs.turnOrder :=
  ⟨⟨by decide, by decide, rfl⟩, (executeCombatAction_turnOrder_spec c2cs c2act 0).1⟩

/-! ## Tiles, movement range, and `moveHero`
(gameStore.ts `getTileAt`, `getMovementRange`, `canMoveTo`, `moveHero`) -/

/-- `getHero` (gameStore.ts): first hero with the id across all factions. -/
def getHero (s : GameState) (hid : String) : Option Hero :=
  (s.factions.flatMap (fun f => f.heroes)).find? (fun h => h.id = hid)

/-- `getTileAt` (gameStore.ts lines 657-668): bounds-checked against the
stored `width`/`height`, then `tiles[y]?.[x]`. -/
def getTileAt (w : WorldMap) (p : Position) : Option Tile :=
  if p.x < 0 ∨ p.x ≥ (w.width : ℤ) ∨ p.y < 0 ∨ p.y ≥ (w.height : ℤ) then none
  else (w.tiles.get? p.y.toNat).bind (fun row => row.get? p.x.toNat)

/-- The 4-connected neighbor offsets, in the source's order. -/
def neighborsOf (p : Position) : List Position :=
  [⟨p.x + 1, p.y⟩, ⟨p.x - 1, p.y⟩, ⟨p.x, p.y + 1⟩, ⟨p.x, p.y - 1⟩]

/-- One BFS queue entry: a position and the accumulated movement cost. -/
structure QueueEntry where
  pos : Position
  cost : ℚ
deriving DecidableEq, Repr

/-- The body of the cost-limited breadth-first search of `getMovementRange`
(gameStore.ts lines 671-716): FIFO queue, a visited set keyed by position,
push each passable neighbor with accumulated cost when it does not exceed
the hero's movement points.  The JavaScript `while` terminates because the
visited set is bounded by the grid; the model supplies enough fuel for that
bound and returns the accumulated list if fuel ever runs out. -/
def bfsAux (w : WorldMap) (origin : Position) (mp : ℚ) :
    ℕ → List Position → List QueueEntry → List Position → List Position
  | 0, _, _, acc => acc
  | _ + 1, _, [], acc => acc
  | fuel + 1, visited, cur :: queue, acc =>
    if cur.pos ∈ visited then bfsAux w origin mp fuel visited queue acc
    else
      let visited := cur.pos :: visited
      if cur.cost ≤ mp then
        let acc := if cur.pos ≠ origin then acc ++ [cur.pos] else acc
        let pushed := (neighborsOf cur.pos).filterMap (fun n =>
          match getTileAt w n with
          | some t =>
            if t.isPassable ∧ cur.cost + t.movementCost ≤ mp then
              some ⟨n, cur.cost + t.movementCost⟩
            else none
          | none => none)
        bfsAux w origin mp fuel visited (queue ++ pushed) acc
      else bfsAux w origin mp fuel visited queue acc

/-- Fuel bound: each grid cell is dequeued-unvisited at most once and each
such step pushes at most 4 entries, so `5·(width·height)+5` steps suffice in
every reachable world.  Soundness of the range (claims C3 and C4) holds for
any fuel value. -/
def bfsFuel (w : WorldMap) : ℕ :=
  5 * (w.width * w.height) + 5

/-- `getMovementRange` (gameStore.ts lines 671-716). -/
def getMovementRange (s : GameState) (hid : String) : List Position :=
  match getHero s hid with
  | none => []
  | some h =>
    bfsAux s.worldMap h.position h.movementPoints (bfsFuel s.worldMap) []
      [⟨h.position, 0⟩] []

/-- `canMoveTo` (gameStore.ts lines 719-722). -/
def canMoveTo (s : GameState) (hid : String) (p : Position) : Bool :=
  (getMovementRange s hid).any (fun q => q.x = p.x ∧ q.y = p.y)

/-- Update the first hero with the given id inside a faction's list. -/
def updateHero (hs : List Hero) (hid : String) (g : Hero → Hero) : List Hero :=
  match hs with
  | [] => []
  | h :: rest => if h.id = hid then g h :: rest else h :: updateHero rest hid g

/-- Mark the first point of interest with the given id discovered. -/
def discoverPOI (ps : List POI) (pid : String) : List POI :=
  match ps with
  | [] => []
  | q :: rest =>
    if q.id = pid then { q with isDiscovered := true } :: rest
    else q :: discoverPOI rest pid

/-- First point of interest with the given id. -/
def getPOI (w : WorldMap) (pid : String) : Option POI :=
  w.pointsOfInterest.find? (fun q => q.id = pid)

/-- The mutation block of `moveHero`: relocate, pay the destination tile's
cost, and handle a point of interest on the destination tile.  Mirrors the
`set(draft => ...)` body (gameStore.ts lines 195-215); the inner guard
re-finds the hero through its faction and re-checks the movement points. -/
def moveHeroMutation (s : GameState) (hero : Hero) (hid : String)
    (target : Position) (tile : Tile) : GameState :=
  match getFaction s hero.factionId with
  | none => s
  | some fac =>
    match fac.heroes.find? (fun h => h.id = hid) with
    | none => s
    | some heroToMove =>
      if heroToMove.movementPoints ≥ tile.movementCost then
        let s1 := { s with factions := (updateFaction s.factions hero.factionId
          (fun f => { f with heroes := (updateHero f.heroes hid (fun h =>
            { h with position := target
                     movementPoints := h.movementPoints - tile.movementCost })) })) }
        match tile.poiId with
        | none => s1
        | some pid =>
          let s2 := { s1 with worldMap :=
            { s1.worldMap with pointsOfInterest := discoverPOI s1.worldMap.pointsOfInterest pid } }
          match getPOI s.worldMap pid with
          | none => s2
          | some poi =>
            if poi.type = .town then { s2 with gamePhase := .town } else s2
      else s

/-- `moveHero` (gameStore.ts lines 183-218). -/
def moveHero (s : GameState) (hid : String) (target : Position) : Bool × GameState :=
  match getHero s hid with
  | none => (false, s)
  | some hero =>
    if canMoveTo s hid target then
      match getTileAt s.worldMap target with
      | none => (false, s)
      | some tile => (true, moveHeroMutation s hero hid target tile)
    else (false, s)

/-! ### C4: soundness of `getMovementRange` -/

/-- Tiles returned by lookups have non-negative movement cost (true of every
generated world: the per-terrain table is positive). -/
def TileCostsNonneg (w : WorldMap) : Prop :=
  ∀ p t, getTileAt w p = some t → 0 ≤ t.movementCost

/-- A 4-connected path from `p` to `q` expanding only through passable
tiles, accumulating each step's destination-tile movement cost into `c`. -/
inductive ReachCost (w : WorldMap) : Position → Position → ℚ → Prop
  | refl (p : Position) : ReachCost w p p 0
  | step {p q r : Position} {c : ℚ} {t : Tile} :
      ReachCost w p q c → r ∈ neighborsOf q → getTileAt w r = some t →
      t.isPassable = true → ReachCost w p r (c + t.movementCost)

theorem ReachCost.nonneg {w : WorldMap} (hnn : TileCostsNonneg w)
    {p q : Position} {c : ℚ} (h : ReachCost w p q c) : 0 ≤ c := by
  induction h with
  | refl => exact le_refl 0
  | step hreach hn ht hp ih => exact add_nonneg ih (hnn _ _ ht)

/-- Invariant carried by every BFS queue entry. -/
def EntryInv (w : WorldMap) (origin : Position) (e : QueueEntry) : Prop :=
  ReachCost w origin e.pos e.cost ∧
  (e.pos = origin ∨ ∃ t, getTileAt w e.pos = some t ∧ t.isPassable = true ∧
    (TileCostsNonneg w → t.movementCost ≤ e.cost))

/-- What C3/C4 need of every returned position. -/
def RangeSound (w : WorldMap) (origin : Position) (mp : ℚ) (p : Position) : Prop :=
  p ≠ origin ∧
  (∃ t, getTileAt w p = some t ∧ t.isPassable = true ∧
    (TileCostsNonneg w → t.movementCost ≤ mp)) ∧
  (∃ c, ReachCost w origin p c ∧ c ≤ mp)

theorem bfsAux_sound (w : WorldMap) (origin : Position) (mp : ℚ) :
    ∀ (fuel : ℕ) (visited : List Position) (queue : List QueueEntry)
      (acc : List Position),
      (∀ e ∈ queue, EntryInv w origin e) →
      (∀ p ∈ acc, RangeSound w origin mp p) →
      ∀ p ∈ bfsAux w origin mp fuel visited queue acc, RangeSound w origin mp p := by
  intro fuel
  induction fuel with
  | zero => intro _ _ acc _ hacc p hp; exact hacc p hp
  | succ fuel ih =>
    intro visited queue acc hq hacc p hp
    match queue with
    | [] => exact hacc p hp
    | cur :: rest =>
      rw [bfsAux] at hp
      split at hp
      · exact ih _ _ _ (fun e he => hq e (List.mem_cons_of_mem _ he)) hacc p hp
      · rename_i hvis
        split at hp
        · rename_i hcost
          refine ih _ _ _ ?_ ?_ p hp
          · intro e he
            rcases List.mem_append.mp he with he | he
            · exact hq e (List.mem_cons_of_mem _ he)
            · rcases List.mem_filterMap.mp he with ⟨n, hn, hfn⟩
              rcases htile : getTileAt w n with _ | t
              · simp only [htile] at hfn
                exact Option.noConfusion hfn
              · simp only [htile] at hfn
                split at hfn
                · rename_i hcond
                  cases hfn
                  refine ⟨ReachCost.step (hq cur (List.mem_cons_self ..)).1 hn htile
                    (by simpa using hcond.1), Or.inr ⟨t, htile, by simpa using hcond.1, ?_⟩⟩
                  intro hnn
                  have h0 : 0 ≤ cur.cost :=
                    ReachCost.nonneg hnn (hq cur (List.mem_cons_self ..)).1
                  simpa using add_le_add_right h0 t.movementCost
                · cases hfn
          · intro q hqmem
            by_cases horig : cur.pos = origin
            · rw [if_neg (by simpa using horig)] at hqmem
              exact hacc q hqmem
            · rw [if_pos (by simpa using horig)] at hqmem
              rcases List.mem_append.mp hqmem with hqmem | hqmem
              · exact hacc q hqmem
              · rcases List.mem_singleton.mp hqmem with rfl
                obtain ⟨hreach, hdisj⟩ := hq cur (List.mem_cons_self ..)
                rcases hdisj with hdisj | ⟨t, ht, hpass, hb⟩
                · exact absurd hdisj horig
                · exact ⟨horig, ⟨t, ht, hpass, fun hnn => le_trans (hb hnn) hcost⟩,
                    ⟨cur.cost, hreach, hcost⟩⟩
        · exact ih _ _ _ (fun e he => hq e (List.mem_cons_of_mem _ he)) hacc p hp

/-- Shared soundness of the BFS: every returned position satisfies
`RangeSound`. -/
theorem getMovementRange_sound (s : GameState) (hid : String) (h : Hero)
    (p : Position) (hh : getHero s hid = some h) (hp : p ∈ getMovementRange s hid) :
    RangeSound s.worldMap h.position h.movementPoints p := by
  refine bfsAux_sound s.worldMap h.position h.movementPoints (bfsFuel s.worldMap) []
    [⟨h.position, 0⟩] [] ?_ (fun q hq => absurd hq (List.not_mem_nil q)) p ?_
  · intro e he
    rcases List.mem_singleton.mp he with rfl
    exact ⟨ReachCost.refl h.position, Or.inl rfl⟩
  · unfold getMovementRange at hp
    rw [hh] at hp
    exact hp

/-- C4: every position returned by `getMovementRange` is distinct from the
hero's position, carries a passable tile, and is reached by a 4-connected
path through passable tiles whose accumulated (fractional) movement cost is
at most the hero's movement points. -/
theorem getMovementRange_legal (s : GameState) (hid : String) (h : Hero)
    (p : Position) (hh : getHero s hid = some h) (hp : p ∈ getMovementRange s hid) :
    p ≠ h.position ∧
    (∃ t, getTileAt s.worldMap p = some t ∧ t.isPassable = true) ∧
    (∃ c, ReachCost s.worldMap h.position p c ∧ c ≤ h.movementPoints) := by
  have hsound := getMovementRange_sound s hid h p hh hp
  exact ⟨hsound.1, ⟨hsound.2.1.choose, hsound.2.1.choose_spec.1, hsound.2.1.choose_spec.2.1⟩,
    hsound.2.2⟩

/-- Literal `Int.toNat` evaluations used when running the model on concrete
worlds (`norm_num` normalizes integer literals into a shape the generic
`Int.toNat` simp lemmas no longer match). -/
theorem int_toNat_zero_lit : (0 : ℤ).toNat = 0 := rfl

theorem int_toNat_one_lit : (1 : ℤ).toNat = 1 := rfl

theorem int_toNat_two_lit : (2 : ℤ).toNat = 2 := rfl

/-- A two-tile strip world (grass, then road) with a hero on the grass tile,
exercising the fractional road cost. -/
def c4grass : Tile :=
  { position := ⟨0, 0⟩, terrain := .grass, elevation := 0, movementCost := 1
    isPassable := true }

def c4road : Tile :=
  { position := ⟨1, 0⟩, terrain := .road, elevation := 0, movementCost := 1/2
    isPassable := true }

def c4world : WorldMap :=
  { width := 2, height := 1, tiles := [[c4grass, c4road]], pointsOfInterest := []
    resourceNodes := [], seed := "w" }

def c4hero : Hero :=
  { id := "h1", name := "Seraphina", level := 1, experience := 0, experienceToNext := 100
    position := ⟨0, 0⟩, movementPoints := 10, maxMovementPoints := 10, crew := []
    bonuses := ⟨0, 0, 0, 0⟩, factionId := .player }

def c4s : GameState :=
  { turn := 1, currentFaction := .player, worldMap := c4world
    factions := [{ id := .player, name := "P", color := "", resources := ⟨0, 0, 0, 0⟩
                   heroes := [c4hero], ownedTowns := [], isAI := false }]
    gamePhase := .worldMap, isGameOver := false }

set_option maxHeartbeats 1000000 in
/-- The movement range of the witness hero evaluates to exactly the road
tile at `(1,0)`. -/
theorem c4range_eval : getMovementRange c4s "h1" = [⟨1, 0⟩] := by
  have t00 : getTileAt c4world ⟨0, 0⟩ = some c4grass := by
    norm_num [getTileAt, c4world, int_toNat_zero_lit]
  have t10 : getTileAt c4world ⟨1, 0⟩ = some c4road := by
    norm_num [getTileAt, c4world, int_toNat_zero_lit, int_toNat_one_lit]
  have tm : getTileAt c4world ⟨-1, 0⟩ = none := by norm_num [getTileAt, c4world]
  have t01 : getTileAt c4world ⟨0, 1⟩ = none := by norm_num [getTileAt, c4world]
  have t0m : getTileAt c4world ⟨0, -1⟩ = none := by norm_num [getTileAt, c4world]
  have t20 : getTileAt c4world ⟨2, 0⟩ = none := by norm_num [getTileAt, c4world]
  have t11 : getTileAt c4world ⟨1, 1⟩ = none := by norm_num [getTileAt, c4world]
  have t1m : getTileAt c4world ⟨1, -1⟩ = none := by norm_num [getTileAt, c4world]
  have hfuel : bfsFuel c4world = 15 := by norm_num [bfsFuel, c4world]
  have hcg : c4grass.movementCost = 1 ∧ c4grass.isPassable = true := ⟨rfl, rfl⟩
  have hcr : c4road.movementCost = 1/2 ∧ c4road.isPassable = true := ⟨rfl, rfl⟩
  norm_num [getMovementRange, getHero, c4s, c4hero, hfuel, bfsAux, neighborsOf,
    List.filterMap_cons, t00, t10, tm, t01, t0m, t20, t11, t1m, hcg.1, hcg.2,
    hcr.1, hcr.2]

set_option maxHeartbeats 1000000 in
/-- Witness for C4: the road tile at `(1,0)` (cost `0.5`) is in range of the
hero at `(0,0)` with 10 movement points, and the theorem applies there. -/
theorem getMovementRange_legal_witness :
    getHero c4s "h1" = some c4hero ∧
    (⟨1, 0⟩ : Position) ∈ getMovementRange c4s "h1" ∧
    ((⟨1, 0⟩ : Position) ≠ c4hero.position ∧
      (∃ t, getTileAt c4s.worldMap ⟨1, 0⟩ = some t ∧ t.isPassable = true) ∧
      (∃ c, ReachCost c4s.worldMap c4hero.position ⟨1, 0⟩ c ∧ c ≤ c4hero.movementPoints)) := by
  have hmem : (⟨1, 0⟩ : Position) ∈ getMovementRange c4s "h1" := by
    rw [c4range_eval]
    exact List.mem_singleton.mpr rfl
  exact ⟨rfl, hmem, getMovementRange_legal c4s "h1" c4hero ⟨1, 0⟩ rfl hmem⟩

/-! ### C3: `moveHero` -/

theorem find?_updateHero_self {hs : List Hero} {hid : String} {h0 : Hero}
    (h : hs.find? (fun h => h.id = hid) = some h0) (g : Hero → Hero)
    (hg : (g h0).id = h0.id) :
    (updateHero hs hid g).find? (fun h => h.id = hid) = some (g h0) := by
  induction hs with
  | nil => cases h
  | cons a rest ih =>
    by_cases ha : a.id = hid
    · rw [List.find?_cons_of_pos _ (by simpa using ha)] at h
      cases h
      simp only [updateHero, if_pos ha]
      exact List.find?_cons_of_pos _ (by simpa using hg.trans ha)
    · rw [List.find?_cons_of_neg _ (by simpa using ha)] at h
      simp only [updateHero, if_neg ha]
      rw [List.find?_cons_of_neg _ (by simpa using ha)]
      exact ih h

theorem find?_discoverPOI_self {ps : List POI} {pid : String} {q : POI}
    (h : ps.find? (fun q => q.id = pid) = some q) :
    (discoverPOI ps pid).find? (fun q => q.id = pid) =
      some { q with isDiscovered := true } := by
  induction ps with
  | nil => cases h
  | cons a rest ih =>
    by_cases ha : a.id = pid
    · rw [List.find?_cons_of_pos _ (by simpa using ha)] at h
      cases h
      simp only [discoverPOI, if_pos ha]
      exact List.find?_cons_of_pos _ (by simpa using ha)
    · rw [List.find?_cons_of_neg _ (by simpa using ha)] at h
      simp only [discoverPOI, if_neg ha]
      rw [List.find?_cons_of_neg _ (by simpa using ha)]
      exact ih h

/-- C3: `moveHero` fails (returns `false`, leaves the state unchanged) when
the target is not in the hero's current movement range; on success it
relocates the hero to the target, deducts exactly the destination tile's
movement cost (not the accumulated path cost) from the hero's movement
points, marks a point of interest on the destination tile discovered, and
switches the phase to `town` when that point of interest is a town. -/
theorem moveHero_spec (s : GameState) (hid : String) (target : Position)
    (hero : Hero) (fac : Faction)
    (hh : getHero s hid = some hero)
    (hfac : getFaction s hero.factionId = some fac)
    (hfh : fac.heroes.find? (fun h => h.id = hid) = some hero)
    (hnn : TileCostsNonneg s.worldMap) :
    (canMoveTo s hid target = false → moveHero s hid target = (false, s)) ∧
    (canMoveTo s hid target = true →
      ∃ tile, getTileAt s.worldMap target = some tile ∧
        tile.movementCost ≤ hero.movementPoints ∧
        (moveHero s hid target).1 = true ∧
        (∃ fac', getFaction (moveHero s hid target).2 hero.factionId = some fac' ∧
          fac'.heroes.find? (fun h => h.id = hid) =
            some { hero with position := target
                             movementPoints := hero.movementPoints - tile.movementCost }) ∧
        (∀ pid poi, tile.poiId = some pid → getPOI s.worldMap pid = some poi →
          getPOI (moveHero s hid target).2.worldMap pid =
            some { poi with isDiscovered := true } ∧
          (poi.type = .town → (moveHero s hid target).2.gamePhase = .town))) := by
  constructor
  · intro hcan
    simp [moveHero, hh, hcan]
  · intro hcan
    have hmem : target ∈ getMovementRange s hid := by
      unfold canMoveTo at hcan
      rcases List.any_eq_true.mp hcan with ⟨q, hq, hqe⟩
      have hqe' : q.x = target.x ∧ q.y = target.y := by simpa using hqe
      have : q = target := by
        cases q; cases target
        simp only at hqe'
        simp [hqe'.1, hqe'.2]
      exact this ▸ hq
    have hsound := getMovementRange_sound s hid hero target hh hmem
    obtain ⟨tile, htile, hpass, hbound⟩ := hsound.2.1
    have hcost : tile.movementCost ≤ hero.movementPoints := hbound hnn
    refine ⟨tile, htile, hcost, ?_⟩
    have hmove : moveHero s hid target = (true, moveHeroMutation s hero hid target tile) := by
      simp [moveHero, hh, hcan, htile]
    rw [hmove]
    have hguard : hero.movementPoints ≥ tile.movementCost := hcost
    have hfacs : (moveHeroMutation s hero hid target tile).factions =
        updateFaction s.factions hero.factionId
          (fun f => { f with heroes := (updateHero f.heroes hid (fun h =>
            { h with position := target
                     movementPoints := h.movementPoints - tile.movementCost })) }) := by
      unfold moveHeroMutation
      simp only [hfac, hfh]
      rw [if_pos hguard]
      rcases tile.poiId with _ | pid
      · rfl
      · dsimp only
        rcases getPOI s.worldMap pid with _ | poi
        · rfl
        · by_cases ht : poi.type = POIType.town <;> simp [ht]
    refine ⟨rfl, ⟨{ fac with heroes := (updateHero fac.heroes hid (fun h =>
        { h with position := target
                 movementPoints := h.movementPoints - tile.movementCost })) }, ?_, ?_⟩, ?_⟩
    · show (moveHeroMutation s hero hid target tile).factions.find?
        (fun f => f.id = hero.factionId) = _
      rw [hfacs]
      exact find?_updateFaction_self hfac _ rfl
    · exact find?_updateHero_self hfh _ rfl
    · intro pid poi hpid hpoi
      have hmut : moveHeroMutation s hero hid target tile =
          { s with
            factions := (updateFaction s.factions hero.factionId
              (fun f => { f with heroes := (updateHero f.heroes hid (fun h =>
                { h with position := target
                         movementPoints := h.movementPoints - tile.movementCost })) }))
            worldMap := { s.worldMap with
              pointsOfInterest := discoverPOI s.worldMap.pointsOfInterest pid }
            gamePhase := if poi.type = POIType.town then GamePhase.town else s.gamePhase } := by
        unfold moveHeroMutation
        simp only [hfac, hfh]
        rw [if_pos hguard]
        simp only [hpid, hpoi]
        by_cases ht : poi.type = POIType.town <;> simp [ht]
      rw [hmut]
      refine ⟨find?_discoverPOI_self hpoi, fun h => ?_⟩
      show (if poi.type = POIType.town then GamePhase.town else s.gamePhase) = GamePhase.town
      rw [if_pos h]

/-- Tiles returned by `getTileAt` come from the tile grid. -/
theorem tileCostsNonneg_of_all {w : WorldMap}
    (h : ∀ row ∈ w.tiles, ∀ t ∈ row, 0 ≤ t.movementCost) : TileCostsNonneg w := by
  intro p t ht
  unfold getTileAt at ht
  split at ht
  · cases ht
  · rcases hrow : w.tiles.get? p.y.toNat with _ | row
    · rw [hrow] at ht
      cases ht
    · rw [hrow] at ht
      simp only [Option.some_bind] at ht
      exact h row (List.get?_mem hrow) t (List.get?_mem ht)

/-- The C3 witness world: the C4 strip with a neutral town on the road tile. -/
def c3town : POI :=
  { id := "t1", type := .town, name := "Ironhold", position := ⟨1, 0⟩
    factionId := .neutral, garrison := some [], isDiscovered := false
    townData := some { recruitPool := [], buildings := 0, resources := ⟨0, 0, 0, 0⟩ } }

def c3road : Tile :=
  { position := ⟨1, 0⟩, terrain := .road, elevation := 0, movementCost := 1/2
    isPassable := true, poiId := some "t1" }

def c3world : WorldMap :=
  { width := 2, height := 1, tiles := [[c4grass, c3road]]
    pointsOfInterest := [c3town], resourceNodes := [], seed := "w" }

def c3s : GameState :=
  { turn := 1, currentFaction := .player, worldMap := c3world
    factions := [{ id := .player, name := "P", color := "", resources := ⟨0, 0, 0, 0⟩
                   heroes := [c4hero], ownedTowns := [], isAI := false }]
    gamePhase := .worldMap, isGameOver := false }

set_option maxHeartbeats 1000000 in
/-- The movement range in the C3 witness world is exactly the road tile. -/
theorem c3range_eval : getMovementRange c3s "h1" = [⟨1, 0⟩] := by
  have t00 : getTileAt c3world ⟨0, 0⟩ = some c4grass := by
    norm_num [getTileAt, c3world, int_toNat_zero_lit]
  have t10 : getTileAt c3world ⟨1, 0⟩ = some c3road := by
    norm_num [getTileAt, c3world, int_toNat_zero_lit, int_toNat_one_lit]
  have tm : getTileAt c3world ⟨-1, 0⟩ = none := by norm_num [getTileAt, c3world]
  have t01 : getTileAt c3world ⟨0, 1⟩ = none := by norm_num [getTileAt, c3world]
  have t0m : getTileAt c3world ⟨0, -1⟩ = none := by norm_num [getTileAt, c3world]
  have t20 : getTileAt c3world ⟨2, 0⟩ = none := by norm_num [getTileAt, c3world]
  have t11 : getTileAt c3world ⟨1, 1⟩ = none := by norm_num [getTileAt, c3world]
  have t1m : getTileAt c3world ⟨1, -1⟩ = none := by norm_num [getTileAt, c3world]
  have hfuel : bfsFuel c3world = 15 := by norm_num [bfsFuel, c3world]
  have hcg : c4grass.movementCost = 1 ∧ c4grass.isPassable = true := ⟨rfl, rfl⟩
  have hcr : c3road.movementCost = 1/2 ∧ c3road.isPassable = true := ⟨rfl, rfl⟩
  norm_num [getMovementRange, getHero, c3s, c4hero, hfuel, bfsAux, neighborsOf,
    List.filterMap_cons, t00, t10, tm, t01, t0m, t20, t11, t1m, hcg.1, hcg.2,
    hcr.1, hcr.2]

/-- Witness for C3: moving the witness hero onto the road tile with the town
succeeds, and the theorem's success conclusions apply there. -/
theorem moveHero_spec_witness :
    canMoveTo c3s "h1" ⟨1, 0⟩ = true ∧
    (∃ tile, getTileAt c3s.worldMap ⟨1, 0⟩ = some tile ∧
      tile.movementCost ≤ c4hero.movementPoints ∧
      (moveHero c3s "h1" ⟨1, 0⟩).1 = true ∧
      (∃ fac', getFaction (moveHero c3s "h1" ⟨1, 0⟩).2 c4hero.factionId = some fac' ∧
        fac'.heroes.find? (fun h => h.id = "h1") =
          some { c4hero with position := ⟨1, 0⟩
                             movementPoints := c4hero.movementPoints - tile.movementCost }) ∧
      (∀ pid poi, tile.poiId = some pid → getPOI c3s.worldMap pid = some poi →
        getPOI (moveHero c3s "h1" ⟨1, 0⟩).2.worldMap pid =
          some { poi with isDiscovered := true } ∧
        (poi.type = .town → (moveHero c3s "h1" ⟨1, 0⟩).2.gamePhase = .town))) := by
  have hnn : TileCostsNonneg c3world := by
    refine tileCostsNonneg_of_all ?_
    intro row hrow t htt
    simp only [c3world, List.mem_singleton] at hrow
    subst hrow
    rcases List.mem_cons.mp htt with rfl | htt
    · norm_num [c4grass]
    · rcases List.mem_singleton.mp htt with rfl
      norm_num [c3road]
  have hcan : canMoveTo c3s "h1" ⟨1, 0⟩ = true := by
    unfold canMoveTo
    rw [c3range_eval]
    decide
  exact ⟨hcan,
    (moveHero_spec c3s "h1" ⟨1, 0⟩ c4hero _ rfl rfl rfl hnn).2 hcan⟩

/-! ## `endTurn` (gameStore.ts lines 221-265)

Only the synchronous `set` block is modelled: the trailing `setTimeout` AI
chaining schedules a later, separate `endTurn` call and changes nothing in
this one. -/

/-- `faction.resources[node.resourceType]` read. -/
def resourceTypeGet (r : Resources) : ResourceType → ℚ
  | .gold => r.gold
  | .wood => r.wood
  | .stone => r.stone
  | .crystals => r.crystals

/-- `faction.resources[node.resourceType] += v`. -/
def resourceTypeAdd (r : Resources) (ty : ResourceType) (v : ℚ) : Resources :=
  match ty with
  | .gold => { r with gold := r.gold + v }
  | .wood => { r with wood := r.wood + v }
  | .stone => { r with stone := r.stone + v }
  | .crystals => { r with crystals := r.crystals + v }

/-- The inner resource-collection loop of `endTurn` for one faction. -/
def creditNodes (nodes : List ResourceNode) (f : Faction) : Faction :=
  nodes.foldl (fun f node =>
    if node.isOwned ∧ node.ownedBy = some f.id then
      { f with resources := resourceTypeAdd f.resources node.resourceType node.amountPerTurn }
    else f) f

/-- Total per-turn yield a faction collects for one resource kind. -/
def ownedYield (nodes : List ResourceNode) (fid : FactionId) (ty : ResourceType) : ℚ :=
  ((nodes.filter (fun n => n.isOwned ∧ n.ownedBy = some fid ∧ n.resourceType = ty)).map
    (fun n => n.amountPerTurn)).sum

/-- `hero.movementPoints = hero.maxMovementPoints` for every hero. -/
def resetHeroes (f : Faction) : Faction :=
  { f with heroes := f.heroes.map (fun h => { h with movementPoints := h.maxMovementPoints }) }

/-- In-place update of the array slot `factions[nextIndex]`. -/
def modifyAt {α : Type} (l : List α) (n : ℕ) (g : α → α) : List α :=
  match l, n with
  | [], _ => []
  | x :: rest, 0 => g x :: rest
  | x :: rest, n + 1 => x :: modifyAt rest n g

/-- `(currentIndex + 1) % factions.length` with `findIndex`'s `-1` for a
missing current faction, as in JavaScript. -/
def nextFactionIndex (s : GameState) : ℕ :=
  (((match s.factions.findIdx? (fun f => f.id = s.currentFaction) with
     | some n => (n : ℤ)
     | none => -1) + 1) % (s.factions.length : ℤ)).toNat

/-- `endTurn` (gameStore.ts lines 221-265).  An empty faction roster would
make the JavaScript throw on `factions[NaN].id`; the model returns the state
unchanged there (no such state is constructible through `initGame`). -/
def endTurn (s : GameState) : GameState :=
  match s.factions with
  | [] => s
  | _ :: _ =>
    match s.factions.get? (nextFactionIndex s) with
    | none => s
    | some nf =>
      let isPlayerNext := nf.id = FactionId.player
      let factions1 := if isPlayerNext then
          s.factions.map (fun f => creditNodes s.worldMap.resourceNodes f)
        else s.factions
      { s with
        turn := if isPlayerNext then s.turn + 1 else s.turn
        factions := modifyAt factions1 (nextFactionIndex s) resetHeroes
        currentFaction := nf.id
        selectedHeroId := match nf.heroes.head? with
          | some h0 => some h0.id
          | none => s.selectedHeroId }

/-! ### C5: `endTurn` -/

theorem get?_modifyAt {α : Type} (l : List α) (n i : ℕ) (g : α → α) :
    (modifyAt l n g).get? i = if i = n then (l.get? n).map g else l.get? i := by
  induction l generalizing n i with
  | nil => simp [modifyAt]
  | cons x rest ih =>
    match n, i with
    | 0, 0 => simp [modifyAt]
    | 0, i + 1 => simp [modifyAt]
    | n + 1, 0 => simp [modifyAt]
    | n + 1, i + 1 =>
      simp only [modifyAt, List.get?_cons_succ]
      rw [ih n i]
      by_cases hni : i = n <;> simp [hni]

theorem creditNodes_id (nodes : List ResourceNode) (f : Faction) :
    (creditNodes nodes f).id = f.id := by
  induction nodes generalizing f with
  | nil => rfl
  | cons node rest ih =>
    unfold creditNodes at *
    rw [List.foldl_cons]
    split <;> simp [ih]

theorem creditNodes_heroes (nodes : List ResourceNode) (f : Faction) :
    (creditNodes nodes f).heroes = f.heroes := by
  induction nodes generalizing f with
  | nil => rfl
  | cons node rest ih =>
    unfold creditNodes at *
    rw [List.foldl_cons]
    split <;> simp [ih]

theorem resourceTypeGet_add (r : Resources) (ty ty' : ResourceType) (v : ℚ) :
    resourceTypeGet (resourceTypeAdd r ty v) ty' =
      resourceTypeGet r ty' + (if ty' = ty then v else 0) := by
  cases ty <;> cases ty' <;> simp [resourceTypeGet, resourceTypeAdd]

/-- The collection loop adds exactly the total yield of the nodes the
faction owns, kind by kind. -/
theorem creditNodes_resources (nodes : List ResourceNode) (f : Faction)
    (ty : ResourceType) :
    resourceTypeGet (creditNodes nodes f).resources ty =
      resourceTypeGet f.resources ty + ownedYield nodes f.id ty := by
  induction nodes generalizing f with
  | nil => simp [creditNodes, ownedYield]
  | cons node rest ih =>
    unfold creditNodes at *
    rw [List.foldl_cons]
    by_cases hown : node.isOwned = true ∧ node.ownedBy = some f.id
    · rw [if_pos hown]
      rw [ih]
      simp only [resourceTypeGet_add]
      unfold ownedYield
      by_cases hty : node.resourceType = ty
      · rw [List.filter_cons_of_pos (by simp [hown.1, hown.2, hty])]
        simp [hty]
        ring
      · rw [List.filter_cons_of_neg (by simp [hown.1, hown.2, hty])]
        simp [Ne.symm hty]
    · rw [if_neg hown]
      rw [ih]
      unfold ownedYield
      rw [List.filter_cons_of_neg (by
        simp only [Bool.not_eq_true, decide_eq_false_iff_not]
        intro hc
        exact hown ⟨hc.1, hc.2.1⟩)]

/-- C5: `endTurn` advances `currentFaction` to the faction at the wrapped
next roster index; exactly when that faction is the player it bumps the turn
counter and credits every faction with the total per-turn yield of the
resource nodes it owns; it resets every hero of the faction about to act to
its `maxMovementPoints`, leaves all other heroes' movement points unchanged,
and auto-selects the first hero of the faction about to act. -/
theorem endTurn_spec (s : GameState) (nf : Faction)
    (hne : s.factions ≠ [])
    (hnf : s.factions.get? (nextFactionIndex s) = some nf) :
    (endTurn s).currentFaction = nf.id ∧
    (endTurn s).turn = (if nf.id = .player then s.turn + 1 else s.turn) ∧
    (∀ i f, s.factions.get? i = some f →
      ∃ f', (endTurn s).factions.get? i = some f' ∧
        (∀ ty, resourceTypeGet f'.resources ty = resourceTypeGet f.resources ty +
          (if nf.id = .player then ownedYield s.worldMap.resourceNodes f.id ty else 0)) ∧
        f'.heroes = (if i = nextFactionIndex s then
          f.heroes.map (fun h => { h with movementPoints := h.maxMovementPoints })
          else f.heroes)) ∧
    (∀ h0, nf.heroes.head? = some h0 → (endTurn s).selectedHeroId = some h0.id) ∧
    (nf.heroes = [] → (endTurn s).selectedHeroId = s.selectedHeroId) := by
  have hstep : endTurn s =
      { s with
        turn := if nf.id = FactionId.player then s.turn + 1 else s.turn
        factions := (modifyAt (if nf.id = FactionId.player then
            s.factions.map (fun f => creditNodes s.worldMap.resourceNodes f)
          else s.factions) (nextFactionIndex s) resetHeroes)
        currentFaction := nf.id
        selectedHeroId := match nf.heroes.head? with
          | some h0 => some h0.id
          | none => s.selectedHeroId } := by
    unfold endTurn
    split
    · rename_i heq
      exact absurd heq hne
    · rw [hnf]
  rw [hstep]
  refine ⟨rfl, rfl, ?_, ?_, ?_⟩
  · intro i f hf
    rw [get?_modifyAt]
    by_cases hpl : nf.id = FactionId.player
    · simp only [if_pos hpl, List.get?_map]
      by_cases hi : i = nextFactionIndex s
      · subst hi
        rw [hnf] at hf
        cases hf
        refine ⟨resetHeroes (creditNodes s.worldMap.resourceNodes nf), ?_, ?_, ?_⟩
        · simp only [eq_self_iff_true, if_true, hnf, Option.map_some']
        · intro ty
          have hres : (resetHeroes (creditNodes s.worldMap.resourceNodes nf)).resources =
              (creditNodes s.worldMap.resourceNodes nf).resources := rfl
          rw [hres, creditNodes_resources]
        · simp only [eq_self_iff_true, if_true]
          show (creditNodes s.worldMap.resourceNodes nf).heroes.map _ = _
          rw [creditNodes_heroes]
      · simp only [if_neg hi, hf]
        refine ⟨creditNodes s.worldMap.resourceNodes f, rfl, ?_, ?_⟩
        · intro ty
          rw [creditNodes_resources]
        · rw [creditNodes_heroes]
    · simp only [if_neg hpl]
      by_cases hi : i = nextFactionIndex s
      · subst hi
        rw [hnf] at hf
        cases hf
        refine ⟨resetHeroes nf, ?_, ?_, ?_⟩
        · simp only [eq_self_iff_true, if_true, hnf, Option.map_some']
        · intro ty
          show resourceTypeGet nf.resources ty = resourceTypeGet nf.resources ty + 0
          rw [add_zero]
        · simp only [eq_self_iff_true, if_true]
          rfl
      · simp only [if_neg hi, hf]
        exact ⟨f, rfl, fun ty => by simp, rfl⟩
  · intro h0 hh0
    simp [hh0]
  · intro hemp
    simp [hemp]

/-- A two-faction state (player, then AI) with one player-owned wood node:
ending the AI's turn wraps back to the player. -/
def c5facP : Faction :=
  { id := .player, name := "Kingdom of Light", color := "#4a90d9"
    resources := ⟨10, 20, 30, 40⟩
    heroes := [{ id := "hp", name := "Magnus", level := 1, experience := 0
                 experienceToNext := 100, position := ⟨0, 0⟩, movementPoints := 3
                 maxMovementPoints := 10, crew := [], bonuses := ⟨0, 0, 0, 0⟩
                 factionId := .player }]
    ownedTowns := [], isAI := false }

def c5facE : Faction :=
  { id := .enemy1, name := "Dark Legion", color := "#d94a4a", resources := ⟨0, 0, 0, 0⟩
    heroes := [], ownedTowns := [], isAI := true }

def c5s : GameState :=
  { turn := 3, currentFaction := .enemy1
    worldMap := { width := 0, height := 0, tiles := [], pointsOfInterest := []
                  resourceNodes := [{ id := "n1", resourceType := .wood, position := ⟨0, 0⟩
                                      amountPerTurn := 7, isOwned := true
                                      ownedBy := some .player }]
                  seed := "" }
    factions := [c5facP, c5facE], gamePhase := .worldMap, isGameOver := false }

/-- Witness for C5: ending the AI faction's turn wraps to the player and
increments the turn counter. -/
theorem endTurn_spec_witness :
    c5s.factions.get? (nextFactionIndex c5s) = some c5facP ∧
    (endTurn c5s).currentFaction = c5facP.id ∧
    (endTurn c5s).turn = (if c5facP.id = .player then c5s.turn + 1 else c5s.turn) :=
  ⟨rfl, (endTurn_spec c5s c5facP (List.cons_ne_nil _ _) rfl).1,
    (endTurn_spec c5s c5facP (List.cons_ne_nil _ _) rfl).2.1⟩

/-! ## Seeded PRNG (random.ts) and world generation (worldGenerator.ts)

`seedrandom(seed)` is an external library producing a seed-determined stream
of doubles in `[0,1)`.  The model quantifies over an arbitrary stream
`ℕ → ℚ`; `StreamOk` captures the library's range guarantee.  Theorems
quantified over every stream in particular cover every seed. -/

/-- A `SeededRandom` instance: the underlying stream plus how many draws
have been consumed. -/
structure Rng where
  stream : ℕ → ℚ
  idx : ℕ

/-- The library's guarantee: every draw lies in `[0,1)`. -/
def StreamOk (f : ℕ → ℚ) : Prop := ∀ n, 0 ≤ f n ∧ f n < 1

/-- `random()`: one draw. -/
def Rng.next (r : Rng) : Rng × ℚ := ({ r with idx := r.idx + 1 }, r.stream r.idx)

/-- `randomInt(min, max)` = `Math.floor(random() * (max - min)) + min`. -/
def Rng.randomInt (r : Rng) (lo hi : ℤ) : Rng × ℤ :=
  let (r', v) := r.next
  (r', ⌊v * ((hi : ℚ) - lo)⌋ + lo)

/-- `randomFloat(min, max)` = `random() * (max - min) + min`. -/
def Rng.randomFloat (r : Rng) (lo hi : ℚ) : Rng × ℚ :=
  let (r', v) := r.next
  (r', v * (hi - lo) + lo)

/-- `randomElement(array)` = `array[randomInt(0, length)]`.  An in-range
index is guaranteed under `StreamOk`; the JavaScript `undefined` of an
out-of-range read is replaced by the supplied default. -/
def Rng.randomElement {α : Type} (r : Rng) (l : List α) (dflt : α) : Rng × α :=
  let (r', i) := r.randomInt 0 l.length
  (r', if 0 ≤ i then (l.get? i.toNat).getD dflt else dflt)

/-- `chance(p)` = `random() < p`. -/
def Rng.chance (r : Rng) (p : ℚ) : Rng × Bool :=
  let (r', v) := r.next
  (r', v < p)

/-- The swap `[result[i], result[j]] = [result[j], result[i]]`; identity when
an index is out of range (unreachable under `StreamOk`). -/
def listSwap {α : Type} (l : List α) (i j : ℕ) : List α :=
  match l.get? i, l.get? j with
  | some a, some b => (l.set i b).set j a
  | _, _ => l

def fyAux {α : Type} : Rng → List α → ℕ → Rng × List α
  | r, l, 0 => (r, l)
  | r, l, k + 1 =>
    let rj := r.randomInt 0 ((k : ℤ) + 2)
    fyAux rj.1 (if 0 ≤ rj.2 then listSwap l (k + 1) rj.2.toNat else l) k

/-- `shuffle(array)`: Fisher-Yates on a copy, `i` from `length-1` down to 1. -/
def Rng.shuffle {α : Type} (r : Rng) (l : List α) : Rng × List α :=
  fyAux r l (l.length - 1)

/-- `randomId(8)`: eight draws over the 36-character alphabet. -/
def idChars : List Char := "abcdefghijklmnopqrstuvwxyz0123456789".toList

def randomIdAux : Rng → ℕ → String → Rng × String
  | r, 0, acc => (r, acc)
  | r, k + 1, acc =>
    let (r', i) := r.randomInt 0 36
    randomIdAux r' k (acc.push (if 0 ≤ i then (idChars.get? i.toNat).getD 'a' else 'a'))

def Rng.randomId (r : Rng) : Rng × String := randomIdAux r 8 ""

/-- Shuffled lists draw their elements from the input. -/
theorem mem_listSwap {α : Type} {l : List α} {i j : ℕ} {x : α}
    (h : x ∈ listSwap l i j) : x ∈ l := by
  unfold listSwap at h
  rcases hi : l.get? i with _ | a <;> rw [hi] at h
  · exact h
  · rcases hj : l.get? j with _ | b <;> rw [hj] at h
    · exact h
    · rcases List.mem_or_eq_of_mem_set h with h | rfl
      · rcases List.mem_or_eq_of_mem_set h with h | rfl
        · exact h
        · exact List.get?_mem hj
      · exact List.get?_mem hi

theorem mem_fyAux {α : Type} {x : α} :
    ∀ {r : Rng} {l : List α} {k : ℕ}, x ∈ (fyAux r l k).2 → x ∈ l := by
  intro r l k
  induction k generalizing r l with
  | zero => exact fun h => h
  | succ k ih =>
    intro h
    simp only [fyAux] at h
    split at h
    · have := ih h
      exact mem_listSwap this
    · exact ih h

theorem mem_shuffle {α : Type} {r : Rng} {l : List α} {x : α}
    (h : x ∈ (r.shuffle l).2) : x ∈ l := mem_fyAux h

/-! ### Terrain generation (worldGenerator.ts lines 96-207)

`SimplexNoise.noise2D`/`octaveNoise` are double-precision float pipelines;
the model abstracts the two octave-noise fields as arbitrary functions
`octE octM : ℕ → ℕ → ℚ` (raw, pre-normalization values), so theorems
quantified over them cover every seed.  The constructor's permutation-table
shuffle consumes exactly 255 draws from the shared stream; its output feeds
only the abstracted noise, so the model advances the stream cursor by 255. -/

structure WorldGenConfig where
  width : ℕ
  height : ℕ
  seed : String
  numTowns : ℕ
  numEnemyCamps : ℕ
  numResourceNodes : ℕ
  numNeutralEncounters : ℕ

/-- `getDefaultWorldGenConfig` (worldGenerator.ts lines 519-529); the
`Date.now()` fallback seed is the caller-supplied default. -/
def getDefaultWorldGenConfig (seed : String) : WorldGenConfig :=
  { width := 64, height := 64, seed := seed, numTowns := 6, numEnemyCamps := 12
    numResourceNodes := 20, numNeutralEncounters := 8 }

/-- `determineTerrain` (worldGenerator.ts lines 184-207). -/
def determineTerrain (elevation moisture : ℚ) : TerrainType :=
  if elevation < 3/10 then .water
  else if elevation > 3/4 then .mountain
  else if moisture < 3/10 ∧ elevation > 7/20 then .desert
  else if moisture > 3/5 ∧ elevation < 13/20 then .forest
  else .grass

/-- One generated tile at `(x, y)`. -/
def makeTile (octE octM : ℕ → ℕ → ℚ) (x y : ℕ) : Tile :=
  let normalizedElevation := (octE x y + 1) / 2
  let normalizedMoisture := (octM x y + 1) / 2
  let terrain := determineTerrain normalizedElevation normalizedMoisture
  { position := ⟨x, y⟩, terrain := terrain, elevation := normalizedElevation
    movementCost := TERRAIN_COSTS terrain, isPassable := TERRAIN_PASSABLE terrain }

/-- `generateTerrain` (worldGenerator.ts lines 142-182): one draw for the
moisture offset (absorbed into `octM`), then the `height × width` grid. -/
def generateTerrain (width height : ℕ) (octE octM : ℕ → ℕ → ℚ) (rng : Rng) :
    Rng × List (List Tile) :=
  let rng1 := (rng.randomFloat 100 1000).1
  (rng1, (List.range height).map (fun y => (List.range width).map (fun x =>
    makeTile octE octM x y)))

/-- `findValidPositions` (worldGenerator.ts lines 501-513): interior cells
(`1 ≤ x ≤ width-2`, `1 ≤ y ≤ height-2`, using row 0's length as the width)
whose terrain is allowed and passable. -/
def findValidPositions (tiles : List (List Tile)) (valid : List TerrainType) :
    List Position :=
  (List.range' 1 (tiles.length - 2)).flatMap (fun y =>
    (List.range' 1 ((tiles.headD []).length - 2)).filterMap (fun x =>
      match (tiles.get? y).bind (fun row => row.get? x) with
      | some t => if t.terrain ∈ valid ∧ t.isPassable then some ⟨(x : ℤ), (y : ℤ)⟩ else none
      | none => none))

/-- `manhattanDistance` (worldGenerator.ts lines 515-517). -/
def manhattanDistance (a b : Position) : ℤ :=
  |a.x - b.x| + |a.y - b.y|

theorem manhattanDistance_comm (a b : Position) :
    manhattanDistance a b = manhattanDistance b a := by
  unfold manhattanDistance
  rw [abs_sub_comm, abs_sub_comm a.y]

/-- Positions produced by `findValidPositions` are strictly inside the
border. -/
theorem findValidPositions_interior {tiles : List (List Tile)}
    {valid : List TerrainType} {p : Position}
    (h : p ∈ findValidPositions tiles valid) :
    1 ≤ p.x ∧ p.x ≤ ((tiles.headD []).length : ℤ) - 2 ∧
    1 ≤ p.y ∧ p.y ≤ (tiles.length : ℤ) - 2 := by
  unfold findValidPositions at h
  rcases List.mem_flatMap.mp h with ⟨y, hy, hx⟩
  rcases List.mem_filterMap.mp hx with ⟨x, hxm, hfx⟩
  rcases hturn : (tiles.get? y).bind (fun row => row.get? x) with _ | t
  · simp only [hturn] at hfx
    exact Option.noConfusion hfx
  · simp only [hturn] at hfx
    split at hfx
    · cases hfx
      rcases List.mem_range'_1.mp hy with ⟨hy1, hy2⟩
      rcases List.mem_range'_1.mp hxm with ⟨hx1, hx2⟩
      refine ⟨?_, ?_, ?_, ?_⟩ <;> dsimp only <;> omega
    · cases hfx

/-! ### Feature placement (worldGenerator.ts lines 209-452) -/

def townNames : List String :=
  ["Ironhold", "Silverdale", "Goldcrest", "Stonehaven", "Oakshire",
   "Riverwatch", "Hillcrest", "Meadowbrook", "Thornfield", "Crystalvale",
   "Frostgate", "Sunhaven", "Shadowmere", "Brightwater", "Stormwind"]

/-- `generateRecruitPool` (worldGenerator.ts lines 258-291). -/
def generateRecruitPool (rng : Rng) : Rng × List UnitRecruitOption :=
  let (r1, aw) := rng.randomInt 5 15
  let (r2, aa) := r1.randomInt 3 10
  let (r3, ac) := r2.randomInt 2 6
  let (r4, am) := r3.randomInt 1 4
  let (r5, ah) := r4.randomInt 2 5
  (r5,
   [{ unitType := .warrior, cost := ⟨100, 0, 0, 0⟩, available := (aw : ℚ), maxPerWeek := 10 },
    { unitType := .archer, cost := ⟨80, 20, 0, 0⟩, available := (aa : ℚ), maxPerWeek := 8 },
    { unitType := .cavalry, cost := ⟨200, 0, 0, 0⟩, available := (ac : ℚ), maxPerWeek := 4 },
    { unitType := .mage, cost := ⟨250, 0, 0, 20⟩, available := (am : ℚ), maxPerWeek := 2 },
    { unitType := .healer, cost := ⟨150, 0, 0, 10⟩, available := (ah : ℚ), maxPerWeek := 3 }])

def genGarrisonAux (difficulty : ℚ) : Rng → ℕ → List GameUnit → Rng × List GameUnit
  | r, 0, acc => (r, acc)
  | r, k + 1, acc =>
    let (r1, ut) := r.randomElement [UnitType.warrior, .archer, .cavalry] .warrior
    let (r2, uid) := r1.randomId
    let (r3, cnt) := r2.randomInt 2 8
    genGarrisonAux difficulty r3 k
      (acc ++ [{ UNIT_TEMPLATES ut with
                 id := "unit_" ++ uid
                 count := ((⌊difficulty * 3⌋ + cnt : ℤ) : ℚ) }])

/-- `generateGarrison` (worldGenerator.ts lines 293-308). -/
def generateGarrison (rng : Rng) (difficulty : ℚ) : Rng × List GameUnit :=
  let (r1, extra) := rng.randomInt 1 3
  genGarrisonAux difficulty r1 (⌊difficulty * 2⌋ + extra).toNat []

/-- `createTown` (worldGenerator.ts lines 232-256); field initializers draw
from the shared stream in source order. -/
def createTown (rng : Rng) (position : Position) (isPlayerStart : Bool) : Rng × POI :=
  let (r1, uid) := rng.randomId
  let (r2, nm) := r1.randomElement townNames ""
  let (r3, gar) := if isPlayerStart then (r2, []) else generateGarrison r2 1
  let (r4, pool) := generateRecruitPool r3
  let (r5, g) := r4.randomInt 100 500
  let (r6, wd) := r5.randomInt 50 200
  let (r7, st) := r6.randomInt 30 150
  let (r8, cr) := r7.randomInt 10 50
  (r8, { id := "town_" ++ uid, type := .town, name := nm, position := position
         factionId := if isPlayerStart then .player else .neutral
         garrison := some gar, isDiscovered := isPlayerStart
         townData := some { recruitPool := pool, buildings := 0
                            resources := ⟨(g : ℚ), (wd : ℚ), (st : ℚ), (cr : ℚ)⟩ } })

def genTownsAux (count : ℕ) : Rng → List Position → List POI → Rng × List POI
  | rng, [], towns => (rng, towns)
  | rng, pos :: rest, towns =>
    if towns.length ≥ count then (rng, towns)
    else if towns.any (fun t => manhattanDistance pos t.position < 8) then
      genTownsAux count rng rest towns
    else
      let rt := createTown rng pos (towns.length = 0)
      genTownsAux count rt.1 rest (towns ++ [rt.2])

/-- `generateTowns` (worldGenerator.ts lines 209-230). -/
def generateTowns (tiles : List (List Tile)) (count : ℕ) (rng : Rng) :
    Rng × List POI :=
  let rs := rng.shuffle (findValidPositions tiles [.grass, .desert])
  genTownsAux count rs.1 rs.2 []

def campNames : List String := ["Goblin", "Bandit", "Orc", "Skeleton", "Troll"]

def createCamp (rng : Rng) (pos : Position) (difficulty : ℤ) : Rng × POI :=
  let (r1, uid) := rng.randomId
  let (r2, nm) := r1.randomElement campNames ""
  let (r3, fid) := r2.randomElement [FactionId.enemy1, .enemy2] .enemy1
  let (r4, gar) := generateGarrison r3 (difficulty : ℚ)
  let (r5, vg) := r4.randomInt 50 200
  let (r6, vw) := r5.randomInt 10 50
  let (r7, vs) := r6.randomInt 5 30
  let (r8, vc) := r7.randomInt 0 20
  (r8, { id := "camp_" ++ uid, type := .enemyCamp, name := nm ++ " Camp", position := pos
         factionId := fid, garrison := some gar, isDiscovered := false
         campData := some { difficulty := (difficulty : ℚ)
                            rewards := ⟨(difficulty : ℚ) * 100 + (vg : ℚ),
                                        (difficulty : ℚ) * 20 + (vw : ℚ),
                                        (difficulty : ℚ) * 15 + (vs : ℚ),
                                        (difficulty : ℚ) * 5 + (vc : ℚ)⟩ } })

def genCampsAux (count : ℕ) (towns : List POI) :
    Rng → List Position → List POI → Rng × List POI
  | rng, [], camps => (rng, camps)
  | rng, pos :: rest, camps =>
    if camps.length ≥ count then (rng, camps)
    else if towns.any (fun t => manhattanDistance pos t.position < 5) ∨
        camps.any (fun c => manhattanDistance pos c.position < 4) then
      genCampsAux count towns rng rest camps
    else
      let rd := rng.randomInt 1 5
      let rc := createCamp rd.1 pos rd.2
      genCampsAux count towns rc.1 rest (camps ++ [rc.2])

/-- `generateEnemyCamps` (worldGenerator.ts lines 310-356). -/
def generateEnemyCamps (tiles : List (List Tile)) (count : ℕ) (rng : Rng)
    (towns : List POI) : Rng × List POI :=
  let rs := rng.shuffle (findValidPositions tiles [.grass, .forest, .desert])
  genCampsAux count towns rs.1 rs.2 []

def resourceTypesList : List ResourceType := [.gold, .wood, .stone, .crystals]

/-- Tile lookup `tiles[pos.y][pos.x]` (in range for every candidate). -/
def tileAt2d (tiles : List (List Tile)) (pos : Position) : Option Tile :=
  if 0 ≤ pos.y ∧ 0 ≤ pos.x then
    (tiles.get? pos.y.toNat).bind (fun row => row.get? pos.x.toNat)
  else none

def genNodesAux (count : ℕ) (tiles : List (List Tile)) (towns camps : List POI) :
    Rng → List Position → List ResourceNode → Rng × List ResourceNode
  | rng, [], nodes => (rng, nodes)
  | rng, pos :: rest, nodes =>
    if nodes.length ≥ count then (rng, nodes)
    else if towns.any (fun t => manhattanDistance pos t.position < 3) ∨
        camps.any (fun c => manhattanDistance pos c.position < 3) ∨
        nodes.any (fun n => manhattanDistance pos n.position < 3) then
      genNodesAux count tiles towns camps rng rest nodes
    else
      let (rng1, rtype) : Rng × ResourceType :=
        match tileAt2d tiles pos with
        | some t =>
          if t.terrain = TerrainType.forest then
            let (ra, b) := rng.chance (7/10)
            if b then (ra, ResourceType.wood) else ra.randomElement resourceTypesList ResourceType.gold
          else if t.terrain = TerrainType.mountain then
            let (ra, b) := rng.chance (7/10)
            if b then (ra, ResourceType.stone) else ra.randomElement resourceTypesList ResourceType.gold
          else rng.randomElement resourceTypesList ResourceType.gold
        | none => rng.randomElement resourceTypesList ResourceType.gold
      let (rng2, uid) := rng1.randomId
      let (rng3, amt) := rng2.randomInt 5 20
      genNodesAux count tiles towns camps rng3 rest
        (nodes ++ [{ id := "resource_" ++ uid, resourceType := rtype, position := pos,
                     amountPerTurn := (amt : ℚ), isOwned := false }])

/-- `generateResourceNodes` (worldGenerator.ts lines 358-405). -/
def generateResourceNodes (tiles : List (List Tile)) (count : ℕ) (rng : Rng)
    (towns camps : List POI) : Rng × List ResourceNode :=
  let rs := rng.shuffle (findValidPositions tiles [.grass, .forest, .desert, .mountain])
  genNodesAux count tiles towns camps rs.1 rs.2 []

def encounterNames : List String :=
  ["Ancient Shrine", "Wandering Merchant", "Lost Treasure", "Hermit\x27s Hut",
   "Mystic Well", "Abandoned Wagon"]

def createEncounter (rng : Rng) (pos : Position) : Rng × POI :=
  let (r1, uid) := rng.randomId
  let (r2, nm) := r1.randomElement encounterNames ""
  (r2, { id := "encounter_" ++ uid, type := .neutralEncounter, name := nm
         position := pos, factionId := .neutral, isDiscovered := false })

def genEncountersAux (count : ℕ) (towns camps : List POI) (nodes : List ResourceNode) :
    Rng → List Position → List POI → Rng × List POI
  | rng, [], encounters => (rng, encounters)
  | rng, pos :: rest, encounters =>
    if encounters.length ≥ count then (rng, encounters)
    else if towns.any (fun t => manhattanDistance pos t.position < 3) ∨
        camps.any (fun c => manhattanDistance pos c.position < 3) ∨
        nodes.any (fun n => manhattanDistance pos n.position < 3) ∨
        encounters.any (fun e => manhattanDistance pos e.position < 3) then
      genEncountersAux count towns camps nodes rng rest encounters
    else
      let re := createEncounter rng pos
      genEncountersAux count towns camps nodes re.1 rest (encounters ++ [re.2])

/-- `generateNeutralEncounters` (worldGenerator.ts lines 407-452). -/
def generateNeutralEncounters (tiles : List (List Tile)) (count : ℕ) (rng : Rng)
    (towns camps : List POI) (nodes : List ResourceNode) : Rng × List POI :=
  let rs := rng.shuffle (findValidPositions tiles [.grass, .forest])
  genEncountersAux count towns camps nodes rs.1 rs.2 []

/-! ### Roads and world assembly (worldGenerator.ts lines 96-140, 454-499) -/

/-- 2D in-place tile update `tiles[p.y][p.x] = ...`. -/
def modifyTile (tiles : List (List Tile)) (p : Position) (g : Tile → Tile) :
    List (List Tile) :=
  if 0 ≤ p.y ∧ 0 ≤ p.x then
    modifyAt tiles p.y.toNat (fun row => modifyAt row p.x.toNat g)
  else tiles

/-- Convert a visited passable non-water tile to road. -/
def markRoad (tiles : List (List Tile)) (p : Position) : List (List Tile) :=
  modifyTile tiles p (fun t =>
    if t.isPassable ∧ t.terrain ≠ .water then
      { t with terrain := .road, movementCost := TERRAIN_COSTS .road }
    else t)

/-- One random step of the road walk toward `fin` (lines 472-492). -/
def roadStep (rng : Rng) (cur fin : Position) : Rng × Position :=
  let dx := fin.x - cur.x
  let dy := fin.y - cur.y
  let (r1, b) := rng.chance (3/5)
  if b then
    if |dx| > |dy| then (r1, ⟨cur.x + dx.sign, cur.y⟩)
    else (r1, ⟨cur.x, cur.y + dy.sign⟩)
  else
    if |dx| ≤ |dy| ∧ dx ≠ 0 then (r1, ⟨cur.x + dx.sign, cur.y⟩)
    else if dy ≠ 0 then (r1, ⟨cur.x, cur.y + dy.sign⟩)
    else (r1, ⟨cur.x + dx.sign, cur.y⟩)

def clampPos (p : Position) (w h : ℕ) : Position :=
  ⟨max 0 (min ((w : ℤ) - 1) p.x), max 0 (min ((h : ℤ) - 1) p.y)⟩

/-- The walk from one town to the next; every iteration moves one step
closer, so `manhattanDistance` is enough fuel. -/
def roadWalk (w h : ℕ) : Rng → List (List Tile) → Position → Position → ℕ →
    Rng × List (List Tile)
  | rng, tiles, _, _, 0 => (rng, tiles)
  | rng, tiles, cur, fin, fuel + 1 =>
    if cur = fin then (rng, tiles)
    else
      let tiles1 := markRoad tiles cur
      let rs := roadStep rng cur fin
      roadWalk w h rs.1 tiles1 (clampPos rs.2 w h) fin fuel

def roadsAux (w h : ℕ) : Rng → List (List Tile) → List POI → Rng × List (List Tile)
  | rng, tiles, [] => (rng, tiles)
  | rng, tiles, [_] => (rng, tiles)
  | rng, tiles, t1 :: t2 :: rest =>
    let rt := roadWalk w h rng tiles t1.position t2.position
      (manhattanDistance t1.position t2.position).toNat
    roadsAux w h rt.1 rt.2 (t2 :: rest)

/-- `generateRoads` (worldGenerator.ts lines 454-499). -/
def generateRoads (tiles : List (List Tile)) (towns : List POI) (rng : Rng) :
    Rng × List (List Tile) :=
  roadsAux (tiles.headD []).length tiles.length rng tiles towns

/-- Attach each point of interest / resource node to the tile at its
position (lines 117-127). -/
def attachPOIs (tiles : List (List Tile)) (pois : List POI) : List (List Tile) :=
  pois.foldl (fun ts poi => modifyTile ts poi.position (fun t => { t with poiId := some poi.id })) tiles

def attachNodes (tiles : List (List Tile)) (nodes : List ResourceNode) :
    List (List Tile) :=
  nodes.foldl (fun ts n => modifyTile ts n.position (fun t => { t with nodeId := some n.id })) tiles

/-- `generateWorld` (worldGenerator.ts lines 96-140), abstracted over the
`seedrandom` stream and the two octave-noise fields. -/
def generateWorld (config : WorldGenConfig) (stream : ℕ → ℚ)
    (octE octM : ℕ → ℕ → ℚ) : WorldMap :=
  let rng0 : Rng := ⟨stream, 0⟩
  let rng1 : Rng := { rng0 with idx := rng0.idx + 255 }
  let rt := generateTerrain config.width config.height octE octM rng1
  let rtw := generateTowns rt.2 config.numTowns rt.1
  let rca := generateEnemyCamps rt.2 config.numEnemyCamps rtw.1 rtw.2
  let rno := generateResourceNodes rt.2 config.numResourceNodes rca.1 rtw.2 rca.2
  let ren := generateNeutralEncounters rt.2 config.numNeutralEncounters rno.1 rtw.2 rca.2 rno.2
  let allPOIs := rtw.2 ++ rca.2 ++ ren.2
  let tiles1 := attachPOIs rt.2 allPOIs
  let tiles2 := attachNodes tiles1 rno.2
  let rro := generateRoads tiles2 rtw.2 ren.1
  { width := config.width, height := config.height, tiles := rro.2
    pointsOfInterest := allPOIs, resourceNodes := rno.2, seed := config.seed }

/-! ### C8: town spacing -/

/-- The spacing relation between towns. -/
def TownsApart (a b : POI) : Prop := 8 ≤ manhattanDistance a.position b.position

theorem townsApart_symm : Symmetric TownsApart := by
  intro a b h
  unfold TownsApart at *
  rw [manhattanDistance_comm]
  exact h

theorem createTown_position (rng : Rng) (pos : Position) (b : Bool) :
    (createTown rng pos b).2.position = pos := rfl

theorem createTown_type (rng : Rng) (pos : Position) (b : Bool) :
    (createTown rng pos b).2.type = POIType.town := rfl

theorem genTownsAux_pairwise (count : ℕ) :
    ∀ (cands : List Position) (rng : Rng) (towns : List POI),
      List.Pairwise TownsApart towns →
      List.Pairwise TownsApart (genTownsAux count rng cands towns).2 := by
  intro cands
  induction cands with
  | nil => exact fun rng towns h => h
  | cons pos rest ih =>
    intro rng towns h
    unfold genTownsAux
    split
    · exact h
    · split
      · exact ih _ _ h
      · rename_i hfar
        refine ih _ _ ?_
        rw [List.pairwise_append]
        refine ⟨h, List.pairwise_singleton _ _, ?_⟩
        intro a ha b hb
        rcases List.mem_singleton.mp hb with rfl
        unfold TownsApart
        rw [createTown_position, manhattanDistance_comm]
        by_contra hlt
        exact hfar (List.any_eq_true.mpr ⟨a, ha, by
          simpa using lt_of_not_le hlt⟩)

theorem genTownsAux_type (count : ℕ) :
    ∀ (cands : List Position) (rng : Rng) (towns : List POI),
      (∀ t ∈ towns, t.type = POIType.town) →
      ∀ t ∈ (genTownsAux count rng cands towns).2, t.type = POIType.town := by
  intro cands
  induction cands with
  | nil => exact fun rng towns h => h
  | cons pos rest ih =>
    intro rng towns h
    unfold genTownsAux
    split
    · exact h
    · split
      · exact ih _ _ h
      · refine ih _ _ ?_
        intro t ht
        rcases List.mem_append.mp ht with ht | ht
        · exact h t ht
        · rcases List.mem_singleton.mp ht with rfl
          exact createTown_type ..

theorem genCampsAux_type (count : ℕ) (towns : List POI) :
    ∀ (cands : List Position) (rng : Rng) (camps : List POI),
      (∀ c ∈ camps, c.type = POIType.enemyCamp) →
      ∀ c ∈ (genCampsAux count towns rng cands camps).2, c.type = POIType.enemyCamp := by
  intro cands
  induction cands with
  | nil => exact fun rng camps h => h
  | cons pos rest ih =>
    intro rng camps h
    unfold genCampsAux
    split
    · exact h
    · split
      · exact ih _ _ h
      · refine ih _ _ ?_
        intro c hc
        rcases List.mem_append.mp hc with hc | hc
        · exact h c hc
        · rcases List.mem_singleton.mp hc with rfl
          rfl

theorem genEncountersAux_type (count : ℕ) (towns camps : List POI)
    (nodes : List ResourceNode) :
    ∀ (cands : List Position) (rng : Rng) (encounters : List POI),
      (∀ e ∈ encounters, e.type = POIType.neutralEncounter) →
      ∀ e ∈ (genEncountersAux count towns camps nodes rng cands encounters).2,
        e.type = POIType.neutralEncounter := by
  intro cands
  induction cands with
  | nil => exact fun rng encounters h => h
  | cons pos rest ih =>
    intro rng encounters h
    unfold genEncountersAux
    split
    · exact h
    · split
      · exact ih _ _ h
      · refine ih _ _ ?_
        intro e he
        rcases List.mem_append.mp he with he | he
        · exact h e he
        · rcases List.mem_singleton.mp he with rfl
          rfl

/-- The generated point-of-interest list splits into towns, camps and
encounters, with the towns pairwise 8 apart. -/
theorem generateWorld_poiSplit (config : WorldGenConfig) (stream : ℕ → ℚ)
    (octE octM : ℕ → ℕ → ℚ) :
    ∃ towns camps enc,
      (generateWorld config stream octE octM).pointsOfInterest = towns ++ camps ++ enc ∧
      List.Pairwise TownsApart towns ∧
      (∀ t ∈ towns, t.type = POIType.town) ∧
      (∀ c ∈ camps, c.type = POIType.enemyCamp) ∧
      (∀ e ∈ enc, e.type = POIType.neutralEncounter) := by
  refine ⟨_, _, _, rfl, ?_, ?_, ?_, ?_⟩
  · exact genTownsAux_pairwise _ _ _ _ (List.Pairwise.nil)
  · exact genTownsAux_type _ _ _ _ (fun t ht => absurd ht (List.not_mem_nil t))
  · exact genCampsAux_type _ _ _ _ _ (fun c hc => absurd hc (List.not_mem_nil c))
  · exact genEncountersAux_type _ _ _ _ _ _ _
      (fun e he => absurd he (List.not_mem_nil e))

/-- C8: any two distinct towns of a generated world are at Manhattan
distance at least 8, for every configuration, seed stream, and noise
field. -/
theorem generateWorld_town_spacing (config : WorldGenConfig) (stream : ℕ → ℚ)
    (octE octM : ℕ → ℕ → ℚ) (t1 t2 : POI)
    (h1 : t1 ∈ (generateWorld config stream octE octM).pointsOfInterest)
    (h2 : t2 ∈ (generateWorld config stream octE octM).pointsOfInterest)
    (ht1 : t1.type = POIType.town) (ht2 : t2.type = POIType.town)
    (hne : t1 ≠ t2) :
    8 ≤ manhattanDistance t1.position t2.position := by
  obtain ⟨towns, camps, enc, heq, hpw, htt, hct, het⟩ :=
    generateWorld_poiSplit config stream octE octM
  rw [heq] at h1 h2
  have hmem : ∀ t : POI, t.type = POIType.town → t ∈ towns ++ camps ++ enc → t ∈ towns := by
    intro t ht hmem
    rcases List.mem_append.mp hmem with hmem | hmem
    · rcases List.mem_append.mp hmem with hmem | hmem
      · exact hmem
      · rw [hct t hmem] at ht
        cases ht
    · rw [het t hmem] at ht
      cases ht
  exact hpw.forall townsApart_symm (hmem t1 ht1 h1) (hmem t2 ht2 h2) hne

/-! ### C10: every placed feature sits strictly inside the map border -/

theorem genTownsAux_pos (count : ℕ) :
    ∀ (cands : List Position) (rng : Rng) (towns : List POI) (t : POI),
      t ∈ (genTownsAux count rng cands towns).2 → t ∈ towns ∨ t.position ∈ cands := by
  intro cands
  induction cands with
  | nil => exact fun rng towns t h => Or.inl h
  | cons pos rest ih =>
    intro rng towns t h
    unfold genTownsAux at h
    split at h
    · exact Or.inl h
    · split at h
      · rcases ih _ _ _ h with h | h
        · exact Or.inl h
        · exact Or.inr (List.mem_cons_of_mem _ h)
      · rcases ih _ _ _ h with h | h
        · rcases List.mem_append.mp h with h | h
          · exact Or.inl h
          · rcases List.mem_singleton.mp h with rfl
            rw [createTown_position]
            exact Or.inr (List.mem_cons_self ..)
        · exact Or.inr (List.mem_cons_of_mem _ h)

theorem genCampsAux_pos (count : ℕ) (towns : List POI) :
    ∀ (cands : List Position) (rng : Rng) (camps : List POI) (c : POI),
      c ∈ (genCampsAux count towns rng cands camps).2 → c ∈ camps ∨ c.position ∈ cands := by
  intro cands
  induction cands with
  | nil => exact fun rng camps c h => Or.inl h
  | cons pos rest ih =>
    intro rng camps c h
    unfold genCampsAux at h
    split at h
    · exact Or.inl h
    · split at h
      · rcases ih _ _ _ h with h | h
        · exact Or.inl h
        · exact Or.inr (List.mem_cons_of_mem _ h)
      · rcases ih _ _ _ h with h | h
        · rcases List.mem_append.mp h with h | h
          · exact Or.inl h
          · rcases List.mem_singleton.mp h with rfl
            exact Or.inr (List.mem_cons_self ..)
        · exact Or.inr (List.mem_cons_of_mem _ h)

theorem genNodesAux_pos (count : ℕ) (tiles : List (List Tile)) (towns camps : List POI) :
    ∀ (cands : List Position) (rng : Rng) (nodes : List ResourceNode) (n : ResourceNode),
      n ∈ (genNodesAux count tiles towns camps rng cands nodes).2 →
      n ∈ nodes ∨ n.position ∈ cands := by
  intro cands
  induction cands with
  | nil => exact fun rng nodes n h => Or.inl h
  | cons pos rest ih =>
    intro rng nodes n h
    unfold genNodesAux at h
    split at h
    · exact Or.inl h
    · split at h
      · rcases ih _ _ _ h with h | h
        · exact Or.inl h
        · exact Or.inr (List.mem_cons_of_mem _ h)
      · rcases ih _ _ _ h with h | h
        · rcases List.mem_append.mp h with h | h
          · exact Or.inl h
          · rcases List.mem_singleton.mp h with rfl
            exact Or.inr (List.mem_cons_self ..)
        · exact Or.inr (List.mem_cons_of_mem _ h)

theorem genEncountersAux_pos (count : ℕ) (towns camps : List POI)
    (nodes : List ResourceNode) :
    ∀ (cands : List Position) (rng : Rng) (encounters : List POI) (e : POI),
      e ∈ (genEncountersAux count towns camps nodes rng cands encounters).2 →
      e ∈ encounters ∨ e.position ∈ cands := by
  intro cands
  induction cands with
  | nil => exact fun rng encounters e h => Or.inl h
  | cons pos rest ih =>
    intro rng encounters e h
    unfold genEncountersAux at h
    split at h
    · exact Or.inl h
    · split at h
      · rcases ih _ _ _ h with h | h
        · exact Or.inl h
        · exact Or.inr (List.mem_cons_of_mem _ h)
      · rcases ih _ _ _ h with h | h
        · rcases List.mem_append.mp h with h | h
          · exact Or.inl h
          · rcases List.mem_singleton.mp h with rfl
            exact Or.inr (List.mem_cons_self ..)
        · exact Or.inr (List.mem_cons_of_mem _ h)

theorem generateTerrain_length (width height : ℕ) (octE octM : ℕ → ℕ → ℚ) (rng : Rng) :
    ((generateTerrain width height octE octM rng).2).length = height := by
  simp [generateTerrain]

theorem generateTerrain_headD (width height : ℕ) (octE octM : ℕ → ℕ → ℚ) (rng : Rng)
    (h : height ≠ 0) :
    (((generateTerrain width height octE octM rng).2).headD []).length = width := by
  unfold generateTerrain
  match height, h with
  | n + 1, _ =>
    rw [List.range_succ_eq_map]
    simp

/-- A position drawn from shuffled valid positions of the generated terrain
is strictly inside the configured border. -/
theorem cand_interior {width height : ℕ} {octE octM : ℕ → ℕ → ℚ} {rng rng2 : Rng}
    {valid : List TerrainType} {p : Position}
    (hp : p ∈ (rng2.shuffle (findValidPositions
      (generateTerrain width height octE octM rng).2 valid)).2) :
    1 ≤ p.x ∧ p.x ≤ (width : ℤ) - 2 ∧ 1 ≤ p.y ∧ p.y ≤ (height : ℤ) - 2 := by
  have hmem := mem_shuffle hp
  have hint := findValidPositions_interior hmem
  rcases Nat.eq_zero_or_pos height with hz | hpos
  · subst hz
    rw [generateTerrain_length] at hint
    omega
  · rw [generateTerrain_headD width height octE octM rng (Nat.pos_iff_ne_zero.mp hpos),
      generateTerrain_length] at hint
    exact hint

/-- C10: every town, enemy camp, neutral encounter and resource node of a
generated world sits strictly inside the border: `1 ≤ x ≤ width-2` and
`1 ≤ y ≤ height-2`. -/
theorem generateWorld_interior (config : WorldGenConfig) (stream : ℕ → ℚ)
    (octE octM : ℕ → ℕ → ℚ) :
    (∀ poi ∈ (generateWorld config stream octE octM).pointsOfInterest,
      1 ≤ poi.position.x ∧ poi.position.x ≤ (config.width : ℤ) - 2 ∧
      1 ≤ poi.position.y ∧ poi.position.y ≤ (config.height : ℤ) - 2) ∧
    (∀ node ∈ (generateWorld config stream octE octM).resourceNodes,
      1 ≤ node.position.x ∧ node.position.x ≤ (config.width : ℤ) - 2 ∧
      1 ≤ node.position.y ∧ node.position.y ≤ (config.height : ℤ) - 2) := by
  constructor
  · intro poi hpoi
    rcases List.mem_append.mp hpoi with hm | hm
    · rcases List.mem_append.mp hm with hm | hm
      · rcases genTownsAux_pos _ _ _ _ _ hm with hm | hm
        · exact absurd hm (List.not_mem_nil _)
        · exact cand_interior hm
      · rcases genCampsAux_pos _ _ _ _ _ _ hm with hm | hm
        · exact absurd hm (List.not_mem_nil _)
        · exact cand_interior hm
    · rcases genEncountersAux_pos _ _ _ _ _ _ _ _ hm with hm | hm
      · exact absurd hm (List.not_mem_nil _)
      · exact cand_interior hm
  · intro node hnode
    rcases genNodesAux_pos _ _ _ _ _ _ _ _ hnode with hm | hm
    · exact absurd hm (List.not_mem_nil _)
    · exact cand_interior hm

/-- Witness configuration: an 11×3 map whose noise carves exactly two grass
cells, at `(1,1)` and `(9,1)`, eight apart; everything else is water. -/
def c8stream : ℕ → ℚ := fun _ => 0

def c8octE : ℕ → ℕ → ℚ :=
  fun x y => if (x = 1 ∧ y = 1) ∨ (x = 9 ∧ y = 1) then 0 else -1

def c8octM : ℕ → ℕ → ℚ := fun _ _ => 0

def c8cfg : WorldGenConfig :=
  { width := 11, height := 3, seed := "s", numTowns := 2, numEnemyCamps := 0
    numResourceNodes := 0, numNeutralEncounters := 0 }

/-- With a zero entropy stream every `randomInt` draw returns its lower bound,
so all generated ids are eight repeated first-alphabet characters. -/
def c8id8 : String :=
  ((((((("".push 'a').push 'a').push 'a').push 'a').push 'a').push 'a').push 'a').push 'a'

def c8pool : List UnitRecruitOption :=
  [{ unitType := .warrior, cost := { gold := 100, wood := 0, stone := 0, crystals := 0 }
     available := 5, maxPerWeek := 10 },
   { unitType := .archer, cost := { gold := 80, wood := 20, stone := 0, crystals := 0 }
     available := 3, maxPerWeek := 8 },
   { unitType := .cavalry, cost := { gold := 200, wood := 0, stone := 0, crystals := 0 }
     available := 2, maxPerWeek := 4 },
   { unitType := .mage, cost := { gold := 250, wood := 0, stone := 0, crystals := 20 }
     available := 1, maxPerWeek := 2 },
   { unitType := .healer, cost := { gold := 150, wood := 0, stone := 0, crystals := 10 }
     available := 2, maxPerWeek := 3 }]

def c8gar : GameUnit :=
  { id := "unit_" ++ c8id8, type := .warrior, name := "Warrior"
    stats := { maxHp := 50, hp := 50, attack := 12, defense := 8, speed := 4, range := 1 }
    count := 5, experience := 0 }

def c8townP : POI :=
  { id := "town_" ++ c8id8, type := .town, name := "Ironhold"
    position := { x := 9, y := 1 }, factionId := .player, garrison := some []
    isDiscovered := true
    townData := some { recruitPool := c8pool, buildings := 0
                       resources := { gold := 100, wood := 50, stone := 30, crystals := 10 } }
    campData := none }

def c8townN : POI :=
  { id := "town_" ++ c8id8, type := .town, name := "Ironhold"
    position := { x := 1, y := 1 }, factionId := .neutral
    garrison := some [c8gar, c8gar, c8gar]
    isDiscovered := false
    townData := some { recruitPool := c8pool, buildings := 0
                       resources := { gold := 100, wood := 50, stone := 30, crystals := 10 } }
    campData := none }

set_option maxHeartbeats 2000000 in
set_option maxRecDepth 4000 in
theorem c8pois_eval :
    (generateWorld c8cfg c8stream c8octE c8octM).pointsOfInterest = [c8townP, c8townN] := by
  norm_num [generateWorld, generateTerrain, generateTowns, generateEnemyCamps,
    generateResourceNodes, generateNeutralEncounters, genTownsAux, genCampsAux,
    genNodesAux, genEncountersAux, createTown, createEncounter, createCamp,
    generateRecruitPool, generateGarrison, genGarrisonAux, findValidPositions,
    makeTile, determineTerrain, TERRAIN_COSTS, TERRAIN_PASSABLE, Rng.shuffle,
    fyAux, listSwap, Rng.randomInt, Rng.randomFloat, Rng.randomElement,
    Rng.randomId, randomIdAux, Rng.next, Rng.chance, idChars, townNames,
    manhattanDistance, c8cfg, c8stream, c8octE, c8octM, int_toNat_zero_lit,
    int_toNat_one_lit, int_toNat_two_lit, List.filterMap_cons, List.range',
    List.flatMap_cons, List.flatMap_nil, c8townP, c8townN, c8pool, c8gar,
    c8id8, UNIT_TEMPLATES]

/-- Witness for C8: on the concrete 11×3 world the two generated towns are
distinct and their Manhattan distance is at least 8. -/
theorem generateWorld_town_spacing_witness :
    c8townP ∈ (generateWorld c8cfg c8stream c8octE c8octM).pointsOfInterest ∧
    c8townN ∈ (generateWorld c8cfg c8stream c8octE c8octM).pointsOfInterest ∧
    c8townP.type = POIType.town ∧ c8townN.type = POIType.town ∧ c8townP ≠ c8townN ∧
    8 ≤ manhattanDistance c8townP.position c8townN.position := by
  have h1 : c8townP ∈ (generateWorld c8cfg c8stream c8octE c8octM).pointsOfInterest := by
    rw [c8pois_eval]; exact List.mem_cons_self _ _
  have h2 : c8townN ∈ (generateWorld c8cfg c8stream c8octE c8octM).pointsOfInterest := by
    rw [c8pois_eval]; exact List.mem_cons_of_mem _ (List.mem_cons_self _ _)
  have hne : c8townP ≠ c8townN := by
    intro h
    have hfac : c8townP.factionId = c8townN.factionId := by rw [h]
    simp only [c8townP, c8townN] at hfac
    exact FactionId.noConfusion hfac
  exact ⟨h1, h2, rfl, rfl, hne,
    generateWorld_town_spacing c8cfg c8stream c8octE c8octM c8townP c8townN h1 h2 rfl rfl hne⟩

/-- Witness for C10: the player town of the concrete 11×3 world lies in the
interior band guaranteed by the placement bound. -/
theorem generateWorld_interior_witness :
    c8townP ∈ (generateWorld c8cfg c8stream c8octE c8octM).pointsOfInterest ∧
    (1 ≤ c8townP.position.x ∧ c8townP.position.x ≤ (c8cfg.width : ℤ) - 2 ∧
     1 ≤ c8townP.position.y ∧ c8townP.position.y ≤ (c8cfg.height : ℤ) - 2) := by
  have h1 : c8townP ∈ (generateWorld c8cfg c8stream c8octE c8octM).pointsOfInterest := by
    rw [c8pois_eval]; exact List.mem_cons_self _ _
  exact ⟨h1, (generateWorld_interior c8cfg c8stream c8octE c8octM).1 c8townP h1⟩

/-! ### C6: determinism of the command surface

`runAutoBattle` (gameStore.ts lines 419-479) calls `Math.random()` directly
(lines 439 and 454), outside the seeded stream.  The ambient entropy the
store can observe is modelled explicitly: `rand` is the sequence of
`Math.random()` results and `now` the `Date.now()` timestamp. -/

structure Ext where
  rand : ℕ → ℚ
  now : ℤ

/-- `enemies[Math.floor(Math.random() * enemies.length)]` — an out-of-range
index yields `undefined` (`none`), as in JavaScript. -/
def rabTarget (r : ℚ) (enemies : List String) : Option String :=
  let idx : ℤ := Int.floor (r * enemies.length)
  if 0 ≤ idx then enemies.get? idx.toNat else none

/-- One attack phase of `runAutoBattle`: each unit of the round-start roster
snapshot attacks a random member of the round-start enemy list.  Both lists
are stale immer snapshots (`const enemies = combat.defenderUnits` is taken
before any action), so removals during the phase do not affect targeting. -/
def rabPhase (ext : Ext) : ℕ → List String → List String → GameState → GameState × ℕ
  | cursor, [], _, s => (s, cursor)
  | cursor, uid :: rest, staleEnemies, s =>
    if staleEnemies.isEmpty then (s, cursor)
    else
      let s1 := executeCombatAction s
        { type := .attack, sourceUnit := uid
          targetUnit := rabTarget (ext.rand cursor) staleEnemies } ext.now
      rabPhase ext (cursor + 1) rest staleEnemies s1

/-- The `while (maxRounds > 0)` loop of `runAutoBattle`. -/
def rabLoop (ext : Ext) : ℕ → GameState → ℕ → GameState × ℕ
  | 0, s, cursor => (s, cursor)
  | fuel + 1, s, cursor =>
    match s.combatState with
    | none => (s, cursor)
    | some combat =>
      if combat.attackerIds.isEmpty ∨ combat.defenderIds.isEmpty then (s, cursor)
      else
        let r1 := rabPhase ext cursor combat.attackerIds combat.defenderIds s
        match r1.1.combatState with
        | none => r1
        | some combatAfter =>
          if combatAfter.defenderIds.isEmpty then r1
          else
            let r2 := rabPhase ext r1.2 combatAfter.defenderIds combatAfter.attackerIds r1.1
            rabLoop ext fuel r2.1 r2.2

/-- `runAutoBattle` (gameStore.ts lines 419-479): twenty rounds of random
attacks, then a result whose winner is the side with surviving attackers. -/
def runAutoBattle (ext : Ext) (s : GameState) (cursor : ℕ) :
    GameState × ℕ × Option CombatResult :=
  match s.combatState with
  | none => (s, cursor, none)
  | some _ =>
    let r := rabLoop ext 20 s cursor
    match r.1.combatState with
    | none => (r.1, r.2, none)
    | some fc =>
      let winA := !fc.attackerIds.isEmpty
      (r.1, r.2, some
        { winnerAttacker := winA
          experienceGained := if winA then 50 else 0
          resourcesLooted := if winA then ⟨100, 20, 10, 5⟩ else ⟨0, 0, 0, 0⟩ })

/-- A battle in which the random target choice is observable: one attacker
unit facing two defender stacks. -/
def c6a1 : CombatUnit :=
  { id := "a1", type := .warrior, name := "A1", stats := ⟨50, 50, 12, 8, 4, 1⟩
    count := 1, experience := 0, combatPosition := ⟨0, 0⟩
    hasActed := false, isDefending := false }

def c6d1 : CombatUnit :=
  { id := "d1", type := .warrior, name := "D1", stats := ⟨50, 5, 60, 0, 4, 1⟩
    count := 1, experience := 0, combatPosition := ⟨7, 0⟩
    hasActed := false, isDefending := false }

def c6d2 : CombatUnit :=
  { id := "d2", type := .warrior, name := "D2", stats := ⟨50, 5, 60, 0, 4, 1⟩
    count := 1, experience := 0, combatPosition := ⟨7, 1⟩
    hasActed := false, isDefending := false }

def c6Hero : Hero :=
  { id := "h6", name := "Brakka", level := 1, experience := 0, experienceToNext := 100
    position := ⟨1, 1⟩, movementPoints := 10, maxMovementPoints := 10, crew := []
    bonuses := ⟨0, 0, 0, 0⟩, factionId := .player }

def c6cs : CombatState :=
  { isActive := true, attacker := c6Hero, defender := .hero c6Hero
    pool := [c6a1, c6d1, c6d2], attackerIds := ["a1"], defenderIds := ["d1", "d2"]
    currentTurn := true, currentUnitIndex := 0, turnOrder := ["a1", "d1", "d2"]
    combatLog := [], gridWidth := 8, gridHeight := 6 }

def c6s : GameState :=
  { turn := 1, currentFaction := .player, worldMap := ⟨0, 0, [], [], [], ""⟩
    factions := [], combatState := some c6cs, gamePhase := .combat, isGameOver := false }

/-- `Math.random()` constantly 0: the attacker targets the first defender. -/
def c6ext1 : Ext := { rand := fun _ => 0, now := 0 }

/-- `Math.random()` constantly 1/2: the attacker targets the second defender. -/
def c6ext2 : Ext := { rand := fun _ => 1/2, now := 0 }

/-! ### C7: non-negativity of faction treasuries

The remaining pieces of the public command surface: `initGame`, `selectHero`,
`startCombat`, `enterTown`, `leaveTown`, `endCombat` and `recruitUnit`
(gameStore.ts lines 145-180, 268-324, 482-545, 548-605).  The C6 command
interpreter and its theorems follow these definitions. -/

def heroNames : List String :=
  ["Alaric", "Seraphina", "Magnus", "Elena", "Theron", "Lyra"]

/-- `createInitialHero` (gameStore.ts lines 54-82). -/
def createInitialHero (fid : FactionId) (pos : Position) (r : Rng) : Hero × Rng :=
  let ri := r.randomId
  let rn := ri.1.randomElement heroNames ""
  let ru1 := rn.1.randomId
  let ru2 := ru1.1.randomId
  ({ id := "hero_" ++ ri.2, name := rn.2, level := 1, experience := 0
     experienceToNext := 100, position := pos, movementPoints := 10
     maxMovementPoints := 10
     crew := [{ UNIT_TEMPLATES .warrior with id := "unit_" ++ ru1.2, count := 10 },
              { UNIT_TEMPLATES .archer with id := "unit_" ++ ru2.2, count := 5 }]
     bonuses := ⟨0, 0, 0, 0⟩, factionId := fid }, ru2.1)

/-- `createInitialFactions` (gameStore.ts lines 84-121). -/
def createInitialFactions (wm : WorldMap) (r : Rng) : List Faction :=
  let playerTown := wm.pointsOfInterest.find?
    (fun poi => poi.type = POIType.town ∧ poi.factionId = FactionId.player)
  let playerStartPos := (playerTown.map (fun t => t.position)).getD ⟨10, 10⟩
  let enemyTowns := wm.pointsOfInterest.filter
    (fun poi => poi.type = POIType.town ∧ poi.factionId = FactionId.neutral)
  let enemyStartPos := (enemyTowns.head?.map (fun t => t.position)).getD ⟨50, 50⟩
  let ph := createInitialHero .player playerStartPos r
  let eh := createInitialHero .enemy1 enemyStartPos ph.2
  [{ id := .player, name := "Kingdom of Light", color := "#4a90d9"
     resources := ⟨1000, 200, 100, 50⟩, heroes := [ph.1]
     ownedTowns := (playerTown.map (fun t => [t.id])).getD [], isAI := false },
   { id := .enemy1, name := "Dark Legion", color := "#d94a4a"
     resources := ⟨800, 150, 80, 30⟩, heroes := [eh.1]
     ownedTowns := [], isAI := true }]

/-- `initGame` (gameStore.ts lines 145-173), abstracted over the seeded
stream and the noise fields exactly as `generateWorld` is; the fresh
`SeededRandom(seed)` shares the stream of the world generator and starts at
cursor 0. -/
def initGame (width height : ℕ) (seed : String) (stream : ℕ → ℚ)
    (octE octM : ℕ → ℕ → ℚ) : GameState :=
  let wcfg := { getDefaultWorldGenConfig seed with width := width, height := height }
  let worldMap := generateWorld wcfg stream octE octM
  let rng : Rng := ⟨stream, 0⟩
  let factions := createInitialFactions worldMap rng
  { turn := 1, currentFaction := .player, worldMap := worldMap
    factions := factions, combatState := none
    selectedHeroId := (factions.head?.bind (fun f => f.heroes.head?)).map (fun h => h.id)
    gamePhase := .worldMap, isGameOver := false, winner := none }

/-- `combatState.attackerUnits.map(cu => ({...}))` in `endCombat`: surviving
attacker stacks turned back into crew units. -/
def survivors (cs : CombatState) : List GameUnit :=
  cs.attackerIds.filterMap (fun uid => (poolGet cs.pool uid).map (fun cu =>
    ({ id := cu.id, type := cu.type, name := cu.name, stats := cu.stats
       count := cu.count, experience := cu.experience } : GameUnit)))

/-- Experience award, level-up check and crew replacement of `endCombat` on
the winning hero (gameStore.ts lines 490-520). -/
def heroAfterVictory (result : CombatResult) (cs : CombatState) (h : Hero) : Hero :=
  let h1 := { h with experience := h.experience + result.experienceGained }
  let h2 := if h1.experience ≥ h1.experienceToNext then
      { h1 with level := h1.level + 1
                experience := h1.experience - h1.experienceToNext
                experienceToNext := ((Int.floor (h1.experienceToNext * (3/2)) : ℤ) : ℚ)
                bonuses := { h1.bonuses with
                  attackBonus := h1.bonuses.attackBonus + 1
                  defenseBonus := h1.bonuses.defenseBonus + 1 } }
    else h1
  { h2 with crew := survivors cs }

/-- Mutate the first hero with the given id found by
`draft.factions.flatMap(f => f.heroes).find(...)`. -/
def updateHeroAcross (fs : List Faction) (hid : String) (g : Hero → Hero) :
    List Faction :=
  match fs with
  | [] => []
  | f :: rest =>
    if f.heroes.any (fun h => h.id = hid) then
      { f with heroes := updateHero f.heroes hid g } :: rest
    else f :: updateHeroAcross rest hid g

/-- The four unguarded `+=` of the loot credit in `endCombat`. -/
def addLoot (r l : Resources) : Resources :=
  ⟨r.gold + l.gold, r.wood + l.wood, r.stone + l.stone, r.crystals + l.crystals⟩

/-- `endCombat` (gameStore.ts lines 482-526). -/
def endCombat (s : GameState) (result : CombatResult) : GameState :=
  match s.combatState with
  | none => s
  | some cs =>
    match (s.factions.flatMap (fun f => f.heroes)).find?
        (fun h => h.id = cs.attacker.id) with
    | none => { s with combatState := none, gamePhase := .worldMap }
    | some atk =>
      if result.winnerAttacker then
        let facs1 := updateHeroAcross s.factions cs.attacker.id
          (heroAfterVictory result cs)
        let facs2 := updateFaction facs1 atk.factionId
          (fun f => { f with resources := addLoot f.resources result.resourcesLooted })
        { s with factions := facs2, combatState := none, gamePhase := .worldMap }
      else { s with combatState := none, gamePhase := .worldMap }

/-- Mutate the first crew stack of the given type. -/
def updateUnitByType (crew : List GameUnit) (ut : UnitType) (g : GameUnit → GameUnit) :
    List GameUnit :=
  match crew with
  | [] => []
  | u :: rest => if u.type = ut then g u :: rest else u :: updateUnitByType rest ut g

/-- The crew update of `recruitUnit`: top up an existing stack or push a
fresh one whose id is derived from `Date.now()`. -/
def addToCrew (crew : List GameUnit) (ut : UnitType) (count : ℚ) (nowId : String) :
    List GameUnit :=
  if crew.any (fun u => u.type = ut) then
    updateUnitByType crew ut (fun u => { u with count := u.count + count })
  else crew ++ [{ UNIT_TEMPLATES ut with id := "unit_" ++ nowId, count := count }]

/-- `draftRecruit.available -= count` on the first matching recruit option. -/
def updateRecruitPool (pool : List UnitRecruitOption) (ut : UnitType) (count : ℚ) :
    List UnitRecruitOption :=
  match pool with
  | [] => []
  | ro :: rest =>
    if ro.unitType = ut then { ro with available := ro.available - count } :: rest
    else ro :: updateRecruitPool rest ut count

/-- The recruit-pool update on the first point of interest with the town's id
(it carries town data whenever the guarded path reaches it). -/
def updateTownPool (ps : List POI) (townId : String) (ut : UnitType) (count : ℚ) :
    List POI :=
  match ps with
  | [] => []
  | q :: rest =>
    if q.id = townId then
      { q with townData := q.townData.map (fun td =>
          { td with recruitPool := updateRecruitPool td.recruitPool ut count }) } :: rest
    else q :: updateTownPool rest townId ut count

/-- The second `set` block of `recruitUnit` (gameStore.ts lines 573-602): if
the recruiting hero is still present, extend its crew and shrink the town's
recruit pool; a missing hero aborts the whole block. -/
def recruitMutation (s : GameState) (hid townId : String) (ut : UnitType)
    (count : ℚ) (nowId : String) : GameState :=
  if (s.factions.flatMap (fun f => f.heroes)).any (fun h => h.id = hid) then
    { s with
      factions := updateHeroAcross s.factions hid
        (fun h => { h with crew := addToCrew h.crew ut count nowId })
      worldMap := { s.worldMap with
        pointsOfInterest := updateTownPool s.worldMap.pointsOfInterest townId ut count } }
  else s

/-- `recruitUnit` (gameStore.ts lines 548-605); `nowId` is the `Date.now()`
string used for a fresh stack id. -/
def recruitUnit (s : GameState) (townId : String) (ut : UnitType) (count : ℚ)
    (nowId : String) : Bool × GameState :=
  match s.selectedHeroId with
  | none => (false, s)
  | some shid =>
    match getHero s shid with
    | none => (false, s)
    | some hero =>
      match getFaction s hero.factionId with
      | none => (false, s)
      | some faction =>
        match s.worldMap.pointsOfInterest.find? (fun poi => poi.id = townId) with
        | none => (false, s)
        | some town =>
          if town.type ≠ POIType.town then (false, s)
          else
            match town.townData with
            | none => (false, s)
            | some td =>
              match td.recruitPool.find? (fun ro => ro.unitType = ut) with
              | none => (false, s)
              | some ro =>
                if ro.available < count then (false, s)
                else
                  let totalCost : PartialResources :=
                    ⟨some (ro.cost.gold * count), some (ro.cost.wood * count),
                     some (ro.cost.stone * count), some (ro.cost.crystals * count)⟩
                  let sp := spendResources s faction.id totalCost
                  if sp.1 then
                    (true, recruitMutation sp.2 hero.id townId ut count nowId)
                  else (false, s)

/-- `selectHero` (gameStore.ts lines 176-180). -/
def selectHero (s : GameState) (hid : Option String) : GameState :=
  { s with selectedHeroId := hid }

/-- `enterTown` (gameStore.ts lines 529-538). -/
def enterTown (s : GameState) (townId : String) : GameState :=
  match s.worldMap.pointsOfInterest.find?
      (fun poi => poi.id = townId ∧ poi.type = POIType.town) with
  | some _ => { s with gamePhase := GamePhase.town }
  | none => s

/-- `leaveTown` (gameStore.ts lines 541-545). -/
def leaveTown (s : GameState) : GameState :=
  { s with gamePhase := GamePhase.worldMap }

/-- `{...unit, combatPosition: {x, y: i}, hasActed: false, isDefending: false,
statusEffects: []}` in `startCombat`. -/
def toCombatUnit (colX : ℤ) (i : ℕ) (u : GameUnit) : CombatUnit :=
  { id := u.id, type := u.type, name := u.name, stats := u.stats, count := u.count
    experience := u.experience, combatPosition := ⟨colX, (i : ℤ)⟩
    hasActed := false, isDefending := false }

/-- `startCombat` (gameStore.ts lines 268-324).  The defender argument is
`string | PointOfInterest`; crew and garrison default to `[]`.  The turn
order mirrors the stable JavaScript `sort` with comparator
`b.stats.speed - a.stats.speed` on a copy of the combined roster. -/
def startCombat (s : GameState) (attackerId : String)
    (defenderRef : Sum String POI) : GameState :=
  match getHero s attackerId with
  | none => s
  | some attacker =>
    let dd : Option (CombatDefender × List GameUnit) :=
      match defenderRef with
      | .inl did =>
        match getHero s did with
        | none => none
        | some dh => some (.hero dh, dh.crew)
      | .inr poi => some (.poi poi, poi.garrison.getD [])
    match dd with
    | none => s
    | some (defender, defenderUnits) =>
      let attackerCombatUnits := attacker.crew.enum.map (fun iu => toCombatUnit 0 iu.1 iu.2)
      let defenderCombatUnits := defenderUnits.enum.map (fun iu => toCombatUnit 7 iu.1 iu.2)
      let allUnits := attackerCombatUnits ++ defenderCombatUnits
      let sorted := allUnits.mergeSort (fun a b => decide (b.stats.speed ≤ a.stats.speed))
      { s with
        combatState := some
          { isActive := true, attacker := attacker, defender := defender
            pool := allUnits
            attackerIds := attackerCombatUnits.map (fun u => u.id)
            defenderIds := defenderCombatUnits.map (fun u => u.id)
            currentTurn := true, currentUnitIndex := 0
            turnOrder := sorted.map (fun u => u.id)
            combatLog := [], gridWidth := 8, gridHeight := 6 }
        gamePhase := GamePhase.combat }

/-! ### C6 (continued): the interpreter over the full command surface -/

/-- The store's public command surface.  Clock readings a handler writes into
the state — the `Date.now()` log timestamp of `executeCombatAction` and the
`Date.now()` stack id of `recruitUnit` — travel with the command, as
everywhere in this development; only `runAutoBattle` reads the ambient
`Math.random()` stream. -/
inductive Cmd where
  | selHero (hid : Option String)
  | move (hid : String) (target : Position)
  | turnEnd
  | combatStart (attackerId : String) (defenderRef : Sum String POI)
  | combatAction (a : CombatAction) (now : ℤ)
  | combatEnd (result : CombatResult)
  | townEnter (townId : String)
  | townLeave
  | recruit (townId : String) (ut : UnitType) (count : ℚ) (nowId : String)
  | addRes (fid : FactionId) (p : PartialResources)
  | spendRes (fid : FactionId) (p : PartialResources)
  | autoBattle
deriving DecidableEq, Repr

/-- Commands whose handlers never read the ambient entropy. -/
def Cmd.deterministic : Cmd → Bool
  | .autoBattle => false
  | _ => true

/-- Run one command against the state, threading the `Math.random()` cursor. -/
def applyCmd (ext : Ext) : GameState × ℕ → Cmd → GameState × ℕ
  | (s, c), .selHero hid => (selectHero s hid, c)
  | (s, c), .move hid t => ((moveHero s hid t).2, c)
  | (s, c), .turnEnd => (endTurn s, c)
  | (s, c), .combatStart aid dref => (startCombat s aid dref, c)
  | (s, c), .combatAction a now => (executeCombatAction s a now, c)
  | (s, c), .combatEnd result => (endCombat s result, c)
  | (s, c), .townEnter tid => (enterTown s tid, c)
  | (s, c), .townLeave => (leaveTown s, c)
  | (s, c), .recruit tid ut count nowId => ((recruitUnit s tid ut count nowId).2, c)
  | (s, c), .addRes fid p => (addResources s fid p, c)
  | (s, c), .spendRes fid p => ((spendResources s fid p).2, c)
  | (s, c), .autoBattle =>
    let r := runAutoBattle ext s c
    (r.1, r.2.1)

def runCmds (ext : Ext) (s : GameState) (cmds : List Cmd) : GameState × ℕ :=
  cmds.foldl (applyCmd ext) (s, 0)

set_option maxHeartbeats 1000000 in
theorem c6eval1 :
    ((runCmds c6ext1 c6s [Cmd.autoBattle]).1.combatState.map
      (fun cs => cs.defenderIds)) = some ["d2"] := by
  norm_num +decide [runCmds, applyCmd, runAutoBattle, rabLoop, rabPhase, rabTarget,
    executeCombatAction, execCombatAction, findRosterUnit, poolGet,
    applyActionBody, applyAttack, attackLogged, attackDamage, attackKilled,
    markActed, endOfAction, roundResetIfDone, actedIn, updateUnit, jsIndexOf,
    UNIT_TEMPLATES, c6ext1, c6s, c6cs, c6a1, c6d1, c6d2, int_toNat_zero_lit,
    int_toNat_one_lit, int_toNat_two_lit]

set_option maxHeartbeats 1000000 in
theorem c6eval2 :
    ((runCmds c6ext2 c6s [Cmd.autoBattle]).1.combatState.map
      (fun cs => cs.defenderIds)) = some ["d1"] := by
  norm_num +decide [runCmds, applyCmd, runAutoBattle, rabLoop, rabPhase, rabTarget,
    executeCombatAction, execCombatAction, findRosterUnit, poolGet,
    applyActionBody, applyAttack, attackLogged, attackDamage, attackKilled,
    markActed, endOfAction, roundResetIfDone, actedIn, updateUnit, jsIndexOf,
    UNIT_TEMPLATES, c6ext2, c6s, c6cs, c6a1, c6d1, c6d2, int_toNat_zero_lit,
    int_toNat_one_lit, int_toNat_two_lit]

/-- Counterexample to the literal claim: the same command sequence from the
same state yields different results under two ambient `Math.random()`
sequences, because `runAutoBattle` draws targets from `Math.random()`
instead of the seeded stream. -/
theorem runAutoBattle_not_deterministic :
    runCmds c6ext1 c6s [Cmd.autoBattle] ≠ runCmds c6ext2 c6s [Cmd.autoBattle] := by
  intro h
  have h2 := congrArg (fun r => (r.1.combatState.map (fun cs => cs.defenderIds))) h
  dsimp only at h2
  rw [c6eval1, c6eval2] at h2
  simp at h2

theorem applyCmd_det (ext1 ext2 : Ext) (p : GameState × ℕ) (c : Cmd)
    (h : c.deterministic = true) : applyCmd ext1 p c = applyCmd ext2 p c := by
  obtain ⟨s, n⟩ := p
  cases c
  case autoBattle => exact absurd h (by simp [Cmd.deterministic])
  all_goals rfl

theorem foldl_applyCmd_det (ext1 ext2 : Ext) :
    ∀ (cmds : List Cmd) (p : GameState × ℕ), (∀ c ∈ cmds, c.deterministic = true) →
      cmds.foldl (applyCmd ext1) p = cmds.foldl (applyCmd ext2) p
  | [], _, _ => rfl
  | c :: rest, p, h => by
    rw [List.foldl_cons, List.foldl_cons,
      applyCmd_det ext1 ext2 p c (h c (List.mem_cons_self c rest)),
      foldl_applyCmd_det ext1 ext2 rest _ (fun d hd => h d (List.mem_cons_of_mem c hd))]

/-- C6 (amended): apart from the fresh-seed helper `generateSeed` and from
`runAutoBattle`, no core operation draws randomness outside the seeded
stream.  Every other store command — `selectHero`, `moveHero`, `endTurn`,
`startCombat`, `executeCombatAction`, `endCombat`, `enterTown`, `leaveTown`,
`recruitUnit`, `addResources` and `spendResources` — is a deterministic
function of the current GameState and its explicit inputs, where the
`Date.now()` readings that `executeCombatAction` (log timestamp) and
`recruitUnit` (fresh stack id) write into the state count among those
inputs: two runs of the same `runAutoBattle`-free command sequence, with the
same clock readings, produce identical states under any ambient entropy.
`runAutoBattle` is excluded because its target selection reads
`Math.random()`, which varies even with the seed and the clock fixed. -/
theorem runCmds_deterministic (ext1 ext2 : Ext) (s : GameState) (cmds : List Cmd)
    (h : ∀ c ∈ cmds, c.deterministic = true) :
    runCmds ext1 s cmds = runCmds ext2 s cmds :=
  foldl_applyCmd_det ext1 ext2 cmds (s, 0) h

/-- Witness for (amended) C6: a concrete deterministic command sequence run
under the two entropy sources of the counterexample. -/
theorem runCmds_deterministic_witness :
    (∀ c ∈ [Cmd.turnEnd, Cmd.townLeave, Cmd.addRes FactionId.player {}],
      c.deterministic = true) ∧
    runCmds c6ext1 c6s [Cmd.turnEnd, Cmd.townLeave, Cmd.addRes FactionId.player {}] =
      runCmds c6ext2 c6s [Cmd.turnEnd, Cmd.townLeave, Cmd.addRes FactionId.player {}] :=
  ⟨by simp [Cmd.deterministic],
   runCmds_deterministic c6ext1 c6ext2 c6s _ (by simp [Cmd.deterministic])⟩

/-- States reachable from `initGame` through the public command surface with
arbitrary argument values — the reachability relation of the literal claim. -/
inductive Reachable : GameState → Prop where
  | init (width height : ℕ) (seed : String) (stream : ℕ → ℚ)
      (octE octM : ℕ → ℕ → ℚ) :
      Reachable (initGame width height seed stream octE octM)
  | addRes {s : GameState} (fid : FactionId) (p : PartialResources) :
      Reachable s → Reachable (addResources s fid p)
  | spendRes {s : GameState} (fid : FactionId) (p : PartialResources) :
      Reachable s → Reachable (spendResources s fid p).2
  | recruit {s : GameState} (townId : String) (ut : UnitType) (count : ℚ)
      (nowId : String) :
      Reachable s → Reachable (recruitUnit s townId ut count nowId).2
  | turnEnd {s : GameState} : Reachable s → Reachable (endTurn s)
  | combatEnd {s : GameState} (result : CombatResult) :
      Reachable s → Reachable (endCombat s result)
  | heroMove {s : GameState} (hid : String) (t : Position) :
      Reachable s → Reachable (moveHero s hid t).2

/-- Counterexample to the literal claim: `addResources` performs no
validation, so a single call with a negative amount drives the player
treasury below zero in a state reachable from `initGame`. -/
theorem addResources_breaks_nonneg :
    ∃ s : GameState, Reachable s ∧ ∃ f ∈ s.factions, f.resources.gold < 0 := by
  refine ⟨addResources (initGame 4 3 "s" (fun _ => 0) (fun _ _ => 0) (fun _ _ => 0))
    FactionId.player { gold := some (-2000) },
    Reachable.addRes FactionId.player { gold := some (-2000) }
      (Reachable.init 4 3 "s" (fun _ => 0) (fun _ _ => 0) (fun _ _ => 0)), ?_⟩
  simp only [initGame, createInitialFactions, addResources, updateFaction]
  norm_num [addPartial, truthy, List.mem_cons]

/-- A non-negative treasury. -/
def ResNN (r : Resources) : Prop :=
  0 ≤ r.gold ∧ 0 ≤ r.wood ∧ 0 ≤ r.stone ∧ 0 ≤ r.crystals

/-- A non-negative optional request. -/
def PartialNN (p : PartialResources) : Prop :=
  0 ≤ p.gold.getD 0 ∧ 0 ≤ p.wood.getD 0 ∧ 0 ≤ p.stone.getD 0 ∧ 0 ≤ p.crystals.getD 0

/-- Every faction's treasury is non-negative. -/
def TreasuriesNN (s : GameState) : Prop := ∀ f ∈ s.factions, ResNN f.resources

/-- No resource node is owned (nothing in the store ever sets `isOwned`). -/
def NodesUnowned (s : GameState) : Prop :=
  ∀ n ∈ s.worldMap.resourceNodes, n.isOwned = false

theorem add_field_nn {x : ℚ} {o : Option ℚ} (hx : 0 ≤ x) (ho : 0 ≤ o.getD 0) :
    0 ≤ (if truthy o then x + o.getD 0 else x) := by
  split
  · exact add_nonneg hx ho
  · exact hx

theorem sub_field_nn {x : ℚ} {o : Option ℚ} (hx : 0 ≤ x)
    (hc : o.elim true (fun q => decide (x ≥ q)) = true) :
    0 ≤ (if truthy o then x - o.getD 0 else x) := by
  cases o with
  | none => simpa using hx
  | some v =>
    simp only [Option.elim, decide_eq_true_eq] at hc
    split
    · simp only [Option.getD_some]
      linarith
    · exact hx

theorem addPartial_nn {r : Resources} {p : PartialResources}
    (hr : ResNN r) (hp : PartialNN p) : ResNN (addPartial r p) :=
  ⟨add_field_nn hr.1 hp.1, add_field_nn hr.2.1 hp.2.1,
   add_field_nn hr.2.2.1 hp.2.2.1, add_field_nn hr.2.2.2 hp.2.2.2⟩

theorem subPartial_nn {r : Resources} {p : PartialResources}
    (hr : ResNN r) (hca : canAfford r p = true) : ResNN (subPartial r p) := by
  simp only [canAfford, Bool.and_eq_true] at hca
  exact ⟨sub_field_nn hr.1 hca.1.1.1, sub_field_nn hr.2.1 hca.1.1.2,
    sub_field_nn hr.2.2.1 hca.1.2, sub_field_nn hr.2.2.2 hca.2⟩

theorem addLoot_nn {r l : Resources} (hr : ResNN r) (hl : ResNN l) :
    ResNN (addLoot r l) :=
  ⟨add_nonneg hr.1 hl.1, add_nonneg hr.2.1 hl.2.1,
   add_nonneg hr.2.2.1 hl.2.2.1, add_nonneg hr.2.2.2 hl.2.2.2⟩

/-- As `mem_updateFaction`, but identifying the updated faction as the one
`find?` (and hence `getFaction`) returns. -/
theorem mem_updateFaction_find {fs : List Faction} {fid : FactionId}
    {g : Faction → Faction} {f : Faction} (h : f ∈ updateFaction fs fid g) :
    f ∈ fs ∨ ∃ f₀, fs.find? (fun x => x.id = fid) = some f₀ ∧ f = g f₀ := by
  induction fs with
  | nil => simp [updateFaction] at h
  | cons a rest ih =>
    simp only [updateFaction] at h
    by_cases ha : a.id = fid
    · rw [if_pos ha] at h
      rcases List.mem_cons.mp h with h | h
      · exact Or.inr ⟨a, List.find?_cons_of_pos _ (by simpa using ha), h⟩
      · exact Or.inl (List.mem_cons_of_mem _ h)
    · rw [if_neg ha] at h
      rcases List.mem_cons.mp h with h | h
      · exact Or.inl (h ▸ List.mem_cons_self a rest)
      · rcases ih h with h | ⟨f₀, hf₀, he⟩
        · exact Or.inl (List.mem_cons_of_mem _ h)
        · refine Or.inr ⟨f₀, ?_, he⟩
          rw [List.find?_cons_of_neg _ (by simpa using ha)]
          exact hf₀

/-- `updateHeroAcross` never touches a treasury. -/
theorem mem_updateHeroAcross_resources {fs : List Faction} {hid : String}
    {g : Hero → Hero} {f : Faction} (h : f ∈ updateHeroAcross fs hid g) :
    ∃ f₀ ∈ fs, f.resources = f₀.resources := by
  induction fs with
  | nil => simp [updateHeroAcross] at h
  | cons a rest ih =>
    simp only [updateHeroAcross] at h
    split at h
    · rcases List.mem_cons.mp h with he | h
      · exact ⟨a, List.mem_cons_self a rest, by rw [he]⟩
      · exact ⟨f, List.mem_cons_of_mem _ h, rfl⟩
    · rcases List.mem_cons.mp h with he | h
      · exact ⟨f, List.mem_cons.mpr (Or.inl he), rfl⟩
      · rcases ih h with ⟨f₀, hm, he⟩
        exact ⟨f₀, List.mem_cons_of_mem _ hm, he⟩

theorem mem_modifyAt {α : Type} {l : List α} {n : ℕ} {g : α → α} {x : α}
    (h : x ∈ modifyAt l n g) : x ∈ l ∨ ∃ y ∈ l, x = g y := by
  induction l generalizing n with
  | nil => simp [modifyAt] at h
  | cons a rest ih =>
    match n with
    | 0 =>
      simp only [modifyAt] at h
      rcases List.mem_cons.mp h with rfl | h
      · exact Or.inr ⟨a, List.mem_cons_self a rest, rfl⟩
      · exact Or.inl (List.mem_cons_of_mem _ h)
    | n + 1 =>
      simp only [modifyAt] at h
      rcases List.mem_cons.mp h with rfl | h
      · exact Or.inl (List.mem_cons_self x rest)
      · rcases ih h with h | ⟨y, hy, he⟩
        · exact Or.inl (List.mem_cons_of_mem _ h)
        · exact Or.inr ⟨y, List.mem_cons_of_mem _ hy, he⟩

/-- With every node unowned, the resource-collection loop is the identity. -/
theorem creditNodes_unowned :
    ∀ (nodes : List ResourceNode), (∀ n ∈ nodes, n.isOwned = false) →
      ∀ f, creditNodes nodes f = f
  | [], _, f => rfl
  | node :: rest, hn, f => by
    unfold creditNodes
    rw [List.foldl_cons, if_neg]
    · exact creditNodes_unowned rest (fun n hm => hn n (List.mem_cons_of_mem _ hm)) f
    · have hno := hn node (List.mem_cons_self node rest)
      simp [hno]

theorem spendResources_worldMap (s : GameState) (fid : FactionId)
    (p : PartialResources) : (spendResources s fid p).2.worldMap = s.worldMap := by
  unfold spendResources
  split
  · rfl
  · split <;> rfl

theorem endTurn_worldMap (s : GameState) : (endTurn s).worldMap = s.worldMap := by
  unfold endTurn
  split
  · rfl
  · split <;> rfl

theorem endCombat_worldMap (s : GameState) (result : CombatResult) :
    (endCombat s result).worldMap = s.worldMap := by
  unfold endCombat
  split
  · rfl
  · split
    · rfl
    · split <;> rfl

theorem recruitMutation_nodes (s : GameState) (hid townId : String) (ut : UnitType)
    (count : ℚ) (nowId : String) :
    (recruitMutation s hid townId ut count nowId).worldMap.resourceNodes =
      s.worldMap.resourceNodes := by
  unfold recruitMutation
  split <;> rfl

theorem recruitUnit_nodes (s : GameState) (townId : String) (ut : UnitType)
    (count : ℚ) (nowId : String) :
    (recruitUnit s townId ut count nowId).2.worldMap.resourceNodes =
      s.worldMap.resourceNodes := by
  unfold recruitUnit
  dsimp only
  repeat' split
  all_goals first
    | rfl
    | rw [recruitMutation_nodes, spendResources_worldMap]

theorem moveHero_nodes (s : GameState) (hid : String) (t : Position) :
    (moveHero s hid t).2.worldMap.resourceNodes = s.worldMap.resourceNodes := by
  unfold moveHero moveHeroMutation
  repeat' split
  all_goals rfl

/-- Faction members after an update that only touches heroes. -/
theorem treasuriesNN_of_resources_preserved {fs : List Faction}
    (ht : ∀ f ∈ fs, ResNN f.resources) {fid : FactionId} {g : Faction → Faction}
    (hg : ∀ f, (g f).resources = f.resources) :
    ∀ f ∈ updateFaction fs fid g, ResNN f.resources := by
  intro f hf
  rcases mem_updateFaction hf with hf | ⟨f₀, hm, he⟩
  · exact ht f hf
  · rw [he, hg]
    exact ht f₀ hm

theorem addResources_treasuries {s : GameState} (ht : TreasuriesNN s)
    {p : PartialResources} (hp : PartialNN p) (fid : FactionId) :
    TreasuriesNN (addResources s fid p) := by
  intro f hf
  dsimp only [addResources] at hf
  rcases mem_updateFaction hf with hf | ⟨f₀, hm, he⟩
  · exact ht f hf
  · rw [he]
    exact addPartial_nn (ht f₀ hm) hp

theorem spendResources_treasuries {s : GameState} (ht : TreasuriesNN s)
    (fid : FactionId) (p : PartialResources) :
    TreasuriesNN (spendResources s fid p).2 := by
  unfold spendResources
  split
  · exact ht
  · rename_i f hf
    split
    · rename_i hca
      intro f' hf'
      dsimp only at hf'
      rcases mem_updateFaction_find hf' with hm | ⟨f₀, hfind, he⟩
      · exact ht f' hm
      · have hsome : some f₀ = some f := hfind.symm.trans hf
        rw [he, Option.some.inj hsome]
        exact subPartial_nn (ht f (List.mem_of_find?_eq_some hf)) hca
    · exact ht

theorem recruitMutation_treasuries {s : GameState} (ht : TreasuriesNN s)
    (hid townId : String) (ut : UnitType) (count : ℚ) (nowId : String) :
    TreasuriesNN (recruitMutation s hid townId ut count nowId) := by
  unfold recruitMutation
  split
  · intro f hf
    dsimp only at hf
    rcases mem_updateHeroAcross_resources hf with ⟨f₀, hm, he⟩
    rw [he]
    exact ht f₀ hm
  · exact ht

theorem recruitUnit_treasuries {s : GameState} (ht : TreasuriesNN s)
    (townId : String) (ut : UnitType) (count : ℚ) (nowId : String) :
    TreasuriesNN (recruitUnit s townId ut count nowId).2 := by
  unfold recruitUnit
  dsimp only
  repeat' split
  all_goals first
    | exact ht
    | exact recruitMutation_treasuries (spendResources_treasuries ht _ _) _ _ _ _ _

theorem moveHero_treasuries {s : GameState} (ht : TreasuriesNN s)
    (hid : String) (t : Position) : TreasuriesNN (moveHero s hid t).2 := by
  unfold moveHero moveHeroMutation
  dsimp only
  repeat' split
  all_goals first
    | exact ht
    | exact fun f hf => treasuriesNN_of_resources_preserved ht (by intro u; rfl) f hf

theorem endCombat_treasuries {s : GameState} (ht : TreasuriesNN s)
    {result : CombatResult} (hr : ResNN result.resourcesLooted) :
    TreasuriesNN (endCombat s result) := by
  unfold endCombat
  split
  · exact ht
  · split
    · exact ht
    · split
      · intro f hf
        dsimp only at hf
        rcases mem_updateFaction hf with hm | ⟨f₀, hm, he⟩
        · rcases mem_updateHeroAcross_resources hm with ⟨f₁, hm1, he1⟩
          rw [he1]
          exact ht f₁ hm1
        · rcases mem_updateHeroAcross_resources hm with ⟨f₁, hm1, he1⟩
          rw [he]
          exact addLoot_nn (he1 ▸ ht f₁ hm1) hr
      · exact ht

theorem endTurn_treasuries {s : GameState} (ht : TreasuriesNN s)
    (hn : NodesUnowned s) : TreasuriesNN (endTurn s) := by
  unfold endTurn
  split
  · exact ht
  · split
    · exact ht
    · intro f hf
      dsimp only at hf
      rcases mem_modifyAt hf with hf | ⟨y, hy, he⟩
      · split at hf
        · rcases List.mem_map.mp hf with ⟨f₀, hm, he⟩
          rw [← he, creditNodes_unowned _ hn]
          exact ht f₀ hm
        · exact ht f hf
      · have hy' : ResNN y.resources := by
          split at hy
          · rcases List.mem_map.mp hy with ⟨f₀, hm, he0⟩
            rw [← he0, creditNodes_unowned _ hn]
            exact ht f₀ hm
          · exact ht y hy
        rw [he]
        exact hy'

/-- Every node `generateResourceNodes` appends is created unowned. -/
theorem genNodesAux_unowned (count : ℕ) (tiles : List (List Tile))
    (towns camps : List POI) :
    ∀ (cands : List Position) (rng : Rng) (nodes : List ResourceNode)
      (n : ResourceNode), n ∈ (genNodesAux count tiles towns camps rng cands nodes).2 →
      n ∈ nodes ∨ n.isOwned = false := by
  intro cands
  induction cands with
  | nil => exact fun rng nodes n h => Or.inl h
  | cons pos rest ih =>
    intro rng nodes n h
    unfold genNodesAux at h
    split at h
    · exact Or.inl h
    · split at h
      · exact ih _ _ _ h
      · rcases ih _ _ _ h with h | h
        · rcases List.mem_append.mp h with h | h
          · exact Or.inl h
          · rcases List.mem_singleton.mp h with rfl
            exact Or.inr rfl
        · exact Or.inr h

theorem initGame_nodes_unowned (w h : ℕ) (seed : String) (stream : ℕ → ℚ)
    (octE octM : ℕ → ℕ → ℚ) :
    NodesUnowned (initGame w h seed stream octE octM) := by
  intro n hn
  rcases genNodesAux_unowned _ _ _ _ _ _ _ n hn with hm | hm
  · exact absurd hm (List.not_mem_nil n)
  · exact hm

theorem initGame_treasuries (w h : ℕ) (seed : String) (stream : ℕ → ℚ)
    (octE octM : ℕ → ℕ → ℚ) :
    TreasuriesNN (initGame w h seed stream octE octM) := by
  intro f hf
  simp only [initGame, createInitialFactions, List.mem_cons,
    List.not_mem_nil, or_false] at hf
  rcases hf with rfl | rfl
  · exact ⟨by norm_num, by norm_num, by norm_num, by norm_num⟩
  · exact ⟨by norm_num, by norm_num, by norm_num, by norm_num⟩

/-- The command surface with the two direct grants restricted to non-negative
amounts: `addResources` requests and `endCombat` loot (the results
`runAutoBattle` produces satisfy the latter). -/
inductive ReachableNN : GameState → Prop where
  | init (width height : ℕ) (seed : String) (stream : ℕ → ℚ)
      (octE octM : ℕ → ℕ → ℚ) :
      ReachableNN (initGame width height seed stream octE octM)
  | addRes {s : GameState} (fid : FactionId) (p : PartialResources)
      (hp : PartialNN p) : ReachableNN s → ReachableNN (addResources s fid p)
  | spendRes {s : GameState} (fid : FactionId) (p : PartialResources) :
      ReachableNN s → ReachableNN (spendResources s fid p).2
  | recruit {s : GameState} (townId : String) (ut : UnitType) (count : ℚ)
      (nowId : String) :
      ReachableNN s → ReachableNN (recruitUnit s townId ut count nowId).2
  | turnEnd {s : GameState} : ReachableNN s → ReachableNN (endTurn s)
  | combatEnd {s : GameState} (result : CombatResult)
      (hr : ResNN result.resourcesLooted) :
      ReachableNN s → ReachableNN (endCombat s result)
  | heroMove {s : GameState} (hid : String) (t : Position) :
      ReachableNN s → ReachableNN (moveHero s hid t).2

theorem reachableNN_inv {s : GameState} (h : ReachableNN s) :
    TreasuriesNN s ∧ NodesUnowned s := by
  induction h with
  | init w hh seed stream octE octM =>
    exact ⟨initGame_treasuries w hh seed stream octE octM,
      initGame_nodes_unowned w hh seed stream octE octM⟩
  | addRes fid p hp _ ih =>
    exact ⟨addResources_treasuries ih.1 hp fid, ih.2⟩
  | spendRes fid p _ ih =>
    refine ⟨spendResources_treasuries ih.1 fid p, fun n hn => ih.2 n ?_⟩
    rw [spendResources_worldMap] at hn
    exact hn
  | recruit townId ut count nowId _ ih =>
    refine ⟨recruitUnit_treasuries ih.1 townId ut count nowId, fun n hn => ih.2 n ?_⟩
    rw [recruitUnit_nodes] at hn
    exact hn
  | turnEnd _ ih =>
    refine ⟨endTurn_treasuries ih.1 ih.2, fun n hn => ih.2 n ?_⟩
    rw [endTurn_worldMap] at hn
    exact hn
  | combatEnd result hr _ ih =>
    refine ⟨endCombat_treasuries ih.1 hr, fun n hn => ih.2 n ?_⟩
    rw [endCombat_worldMap] at hn
    exact hn
  | heroMove hid t _ ih =>
    refine ⟨moveHero_treasuries ih.1 hid t, fun n hn => ih.2 n ?_⟩
    rw [moveHero_nodes] at hn
    exact hn

/-- C7 (amended): in every game state reachable from `initGame` through the
public command surface — `addResources` restricted to non-negative requests
and `endCombat` to non-negative loot, all other commands with arbitrary
arguments — every faction's resources quadruple stays non-negative.  The
unrestricted claim fails: `addResources` validates nothing. -/
theorem reachableNN_resources_nonneg {s : GameState} (h : ReachableNN s) :
    ∀ f ∈ s.factions, 0 ≤ f.resources.gold ∧ 0 ≤ f.resources.wood ∧
      0 ≤ f.resources.stone ∧ 0 ≤ f.resources.crystals :=
  (reachableNN_inv h).1

/-- Witness for (amended) C7 at a concrete freshly initialised game. -/
theorem reachableNN_resources_nonneg_witness :
    ReachableNN (initGame 4 3 "w" (fun _ => 0) (fun _ _ => 0) (fun _ _ => 0)) ∧
    ∀ f ∈ (initGame 4 3 "w" (fun _ => 0) (fun _ _ => 0) (fun _ _ => 0)).factions,
      0 ≤ f.resources.gold ∧ 0 ≤ f.resources.wood ∧
      0 ≤ f.resources.stone ∧ 0 ≤ f.resources.crystals :=
  ⟨ReachableNN.init 4 3 "w" (fun _ => 0) (fun _ _ => 0) (fun _ _ => 0),
   reachableNN_resources_nonneg
     (ReachableNN.init 4 3 "w" (fun _ => 0) (fun _ _ => 0) (fun _ _ => 0))⟩

end VoxelGame
